import Mathlib

/-!
Verification development for the Bailu-Cli coding agent (TypeScript sources).

Shallow embedding of the agent core: the tool-call parser
(src/tools/parser.ts), the file tools (read_file.ts, write_file.ts,
list_directory.ts, apply_diff), the tool executor (executor.ts), the LLM
transport retry logic (src/llm/client.ts), and the orchestrator loop
(src/agent/orchestrator.ts).  Filesystem state is passed explicitly; the
LLM stream and tool handler outcomes are oracle parameters; JavaScript
strings are Lean strings (worked on as `List Char`).
-/

namespace Bailu

/-! ## JavaScript string primitives -/

/-- The JavaScript whitespace set used by `String.prototype.trim` and by the
regex class `\s` (ASCII whitespace, NBSP, the Unicode space separators,
line/paragraph separators and the BOM). -/
def isJsWs (c : Char) : Bool :=
  c = ' ' || c = '\t' || c = '\n' || c = '\x0b' || c = '\x0c' || c = '\r' ||
  c = ' ' || c = (Char.ofNat 0x1680) ||
  (0x2000 ≤ c.toNat && c.toNat ≤ 0x200a) ||
  c = (Char.ofNat 0x2028) || c = (Char.ofNat 0x2029) ||
  c = (Char.ofNat 0x202f) || c = (Char.ofNat 0x205f) ||
  c = (Char.ofNat 0x3000) || c = (Char.ofNat 0xfeff)

/-- JavaScript `String.prototype.trim` on a character list. -/
def jsTrim (cs : List Char) : List Char :=
  ((cs.dropWhile isJsWs).reverse.dropWhile isJsWs).reverse

/-- Index of the first occurrence of `pat` in `cs` (`String.prototype.indexOf`). -/
def findSub (pat : List Char) : List Char → Option Nat
  | [] => if pat.isEmpty then some 0 else none
  | c :: rest =>
    if pat.isPrefixOf (c :: rest) then some 0
    else (findSub pat rest).map (· + 1)

/-- `true` iff `pat` occurs somewhere in `cs` (`String.prototype.includes`). -/
def containsSub (pat cs : List Char) : Bool := (findSub pat cs).isSome

/-- String form of `containsSub` on `String`s. -/
def strIncludes (pat s : String) : Bool := containsSub pat.data s.data

/-- `split` on a single-character separator, on character lists
(semantics of both JS `String.prototype.split` and Lean `String.splitOn`
for a one-character separator). -/
def splitOnCharList (sep : Char) : List Char → List (List Char)
  | [] => [[]]
  | x :: rest =>
    match splitOnCharList sep rest with
    | [] => [[]]
    | cur :: parts =>
      if x = sep then [] :: cur :: parts else (x :: cur) :: parts

/-- `s.split(sep)` for a one-character separator. -/
def strSplitOnChar (sep : Char) (s : String) : List String :=
  (splitOnCharList sep s.data).map String.mk

/-- `s.startsWith(pre)`. -/
def strStartsWith (s pre : String) : Bool := pre.data.isPrefixOf s.data

/-- `Array.prototype.join(sep)` / `String.intercalate`. -/
def strJoin (sep : String) : List String → String
  | [] => ""
  | x :: rest => rest.foldl (fun acc y => acc ++ sep ++ y) x

/-- `s.slice(1)`. -/
def strDrop1 (s : String) : String := String.mk (s.data.drop 1)

/-- Decimal digit test (regex `\d`). -/
def isDig (c : Char) : Bool := '0' ≤ c && c ≤ '9'

/-- ASCII letter test (regex `[a-zA-Z]`). -/
def isAsciiLetter (c : Char) : Bool :=
  ('a' ≤ c && c ≤ 'z') || ('A' ≤ c && c ≤ 'Z')

/-- Hexadecimal digit test. -/
def isHexDig (c : Char) : Bool :=
  isDig c || ('a' ≤ c && c ≤ 'f') || ('A' ≤ c && c ≤ 'F')

/-! ## JavaScript `Number(string)` recognition

`parser.ts` coerces a parameter value with `!isNaN(Number(v)) && v !== ""`.
We embed the ES string-to-number grammar as a recognizer: `jsIsNumeric v`
holds iff `Number(v)` is not `NaN`.  The numeric value itself is never
needed by any verified property, so number-typed parameters carry their
source text. -/

/-- Consume one or more characters satisfying `p`; return the rest on success. -/
def consume1 (p : Char → Bool) (cs : List Char) : Option (List Char) :=
  let rest := cs.dropWhile p
  if rest.length = cs.length then none else some rest

/-- Optional exponent part `[eE][+-]?[0-9]+` followed by end of input. -/
def jsExpTailEnd (cs : List Char) : Bool :=
  match cs with
  | [] => true
  | e :: rest =>
    if e = 'e' || e = 'E' then
      let rest := match rest with
        | s :: r => if s = '+' || s = '-' then r else s :: r
        | [] => []
      match consume1 isDig rest with
      | some [] => true
      | _ => false
    else false

/-- ES `StrDecimalLiteral` without the sign, anchored at end of input. -/
def jsDecTailEnd (cs : List Char) : Bool :=
  match cs with
  | '.' :: rest =>
    match consume1 isDig rest with
    | some r => jsExpTailEnd r
    | none => false
  | _ =>
    match consume1 isDig cs with
    | some r =>
      match r with
      | '.' :: r2 => jsExpTailEnd (r2.dropWhile isDig)
      | _ => jsExpTailEnd r
    | none => false

/-- ES2015 `ToNumber` on strings: `jsIsNumeric v = !isNaN(Number(v))`.
Accepts the empty/whitespace-only string (value `0`), optionally signed
decimal literals and `Infinity`, and unsigned `0x`/`0o`/`0b` literals. -/
def jsIsNumeric (s : String) : Bool :=
  let cs := jsTrim s.data
  match cs with
  | [] => true
  | _ =>
    let signed := match cs with
      | c :: rest => if c = '+' || c = '-' then rest else cs
      | [] => cs
    (signed = "Infinity".data) ||
    jsDecTailEnd signed ||
    (match cs with
     | '0' :: x :: rest =>
       if x = 'x' || x = 'X' then (consume1 isHexDig rest) = some []
       else if x = 'o' || x = 'O' then (consume1 (fun c => '0' ≤ c && c ≤ '7') rest) = some []
       else if x = 'b' || x = 'B' then (consume1 (fun c => c = '0' || c = '1') rest) = some []
       else false
     | _ => false)

/-- The trimmed string is a signed `Infinity` literal, i.e. `Number` of it is
one of the two non-finite infinities. -/
def jsIsInfinityLiteral (s : String) : Bool :=
  let cs := jsTrim s.data
  let signed := match cs with
    | c :: rest => if c = '+' || c = '-' then rest else cs
    | [] => cs
  signed = "Infinity".data

/-! ## JSON validity (`JSON.parse` succeeds)

A recognizer for RFC 8259 JSON, used by the parser's structured-value
branch.  Fuel bounds the nesting depth; `s.length + 1` is always enough
because every nesting level consumes at least one character. -/

/-- JSON whitespace (space, tab, LF, CR). -/
def isJsonWs (c : Char) : Bool := c = ' ' || c = '\t' || c = '\n' || c = '\r'

/-- Body of a JSON string after the opening quote; returns the rest after the
closing quote. -/
def jsonStringBody : List Char → Option (List Char)
  | [] => none
  | '"' :: rest => some rest
  | '\\' :: e :: rest =>
    if e = '"' || e = '\\' || e = '/' || e = 'b' || e = 'f' || e = 'n' || e = 'r' || e = 't' then
      jsonStringBody rest
    else if e = 'u' then
      match rest with
      | a :: b :: c :: d :: r =>
        if isHexDig a && isHexDig b && isHexDig c && isHexDig d then
          jsonStringBody r
        else none
      | _ => none
    else none
  | ['\\'] => none
  | c :: rest => if c.toNat ≥ 0x20 then jsonStringBody rest else none

/-- A JSON number; returns the rest on success. -/
def jsonNumber (cs : List Char) : Option (List Char) :=
  let cs := match cs with
    | '-' :: rest => rest
    | _ => cs
  let intPart : Option (List Char) :=
    match cs with
    | '0' :: rest => some rest
    | c :: rest => if isDig c && c ≠ '0' then some (rest.dropWhile isDig) else none
    | [] => none
  match intPart with
  | none => none
  | some cs =>
    let cs := match cs with
      | '.' :: rest =>
        match consume1 isDig rest with
        | some r => some r
        | none => none
      | _ => some cs
    match cs with
    | none => none
    | some cs =>
      match cs with
      | e :: rest =>
        if e = 'e' || e = 'E' then
          let rest := match rest with
            | s :: r => if s = '+' || s = '-' then r else s :: r
            | [] => []
          consume1 isDig rest
        else some (e :: rest)
      | [] => some []

mutual

/-- Consume one JSON value (after skipping leading whitespace). -/
def jsonValue : Nat → List Char → Option (List Char)
  | 0, _ => none
  | Nat.succ f, cs =>
    let cs := cs.dropWhile isJsonWs
    match cs with
    | [] => none
    | c :: rest =>
      if c = Char.ofNat 0x7b then
        let rest := rest.dropWhile isJsonWs
        match rest with
        | c2 :: r => if c2 = Char.ofNat 0x7d then some r else jsonMembers f rest
        | [] => none
      else if c = '[' then
        let rest := rest.dropWhile isJsonWs
        match rest with
        | ']' :: r => some r
        | _ => jsonElements f rest
      else if c = '"' then jsonStringBody rest
      else if c = 't' then
        if "rue".data.isPrefixOf rest then some (rest.drop 3) else none
      else if c = 'f' then
        if "alse".data.isPrefixOf rest then some (rest.drop 4) else none
      else if c = 'n' then
        if "ull".data.isPrefixOf rest then some (rest.drop 3) else none
      else jsonNumber (c :: rest)

/-- One or more `"key": value` members, then the closing brace. -/
def jsonMembers : Nat → List Char → Option (List Char)
  | 0, _ => none
  | Nat.succ f, cs =>
    let cs := cs.dropWhile isJsonWs
    match cs with
    | '"' :: rest =>
      match jsonStringBody rest with
      | none => none
      | some cs =>
        match cs.dropWhile isJsonWs with
        | ':' :: cs =>
          match jsonValue f cs with
          | none => none
          | some cs =>
            match cs.dropWhile isJsonWs with
            | c :: r =>
              if c = ',' then jsonMembers f r
              else if c = Char.ofNat 0x7d then some r
              else none
            | [] => none
        | _ => none
    | _ => none

/-- One or more array elements, then the closing bracket. -/
def jsonElements : Nat → List Char → Option (List Char)
  | 0, _ => none
  | Nat.succ f, cs =>
    match jsonValue f cs with
    | none => none
    | some cs =>
      match cs.dropWhile isJsonWs with
      | c :: r =>
        if c = ',' then jsonElements f r
        else if c = ']' then some r
        else none
      | [] => none

end

/-- `JSON.parse s` succeeds. -/
def jsonParses (s : String) : Bool :=
  match jsonValue (s.length + 1) s.data with
  | some rest => (rest.dropWhile isJsonWs).isEmpty
  | none => false

/-! ## Data model (src/tools/types.ts) -/

/-- A parsed tool-call parameter value.  Numbers and structured (JSON)
values are represented by their source text: no verified property depends
on the parsed numeric or structured value, only on which branch of the
coercion fired. -/
inductive PValue where
  | pstr (s : String)
  | pnum (src : String)
  | pbool (b : Bool)
  | pjson (src : String)
deriving Repr, DecidableEq

/-- JavaScript truthiness of a parameter value (`params.path || params.file`). -/
def PValue.truthy : PValue → Bool
  | .pstr s => s ≠ ""
  | .pnum _ => true   -- only checked via `typeof === 'string'` afterwards
  | .pbool b => b
  | .pjson _ => true

/-- A `ToolCall { tool, params }`; `params` is the insertion-ordered record
built by the parser. -/
structure ToolCall where
  tool : String
  params : List (String × PValue)
deriving Repr, DecidableEq

/-- Record update semantics of `params[name] = value` (later assignment to
an existing key overwrites in place). -/
def paramsInsert (ps : List (String × PValue)) (k : String) (v : PValue) :
    List (String × PValue) :=
  if ps.any (fun p => p.1 = k) then
    ps.map (fun p => if p.1 = k then (k, v) else p)
  else ps ++ [(k, v)]

/-- `name in params`. -/
def paramsHas (ps : List (String × PValue)) (k : String) : Bool :=
  ps.any (fun p => p.1 = k)

/-- `params[name]` lookup. -/
def paramsGet (ps : List (String × PValue)) (k : String) : Option PValue :=
  (ps.find? (fun p => p.1 = k)).map (·.2)

/-- `params[name]` when it is a string (`typeof === 'string'`). -/
def paramsGetStr (ps : List (String × PValue)) (k : String) : Option String :=
  match paramsGet ps k with
  | some (.pstr s) => some s
  | _ => none

/-! ## Tool-call parser (src/tools/parser.ts, `parseToolCalls`) -/

/-- The value a captured `<param>` region is reduced to before coercion
(parser.ts lines 49–55): `match[2].trim()`, then a `<![CDATA[...]]>`
wrapper, if it encloses the whole trimmed value, is stripped (its content
is not re-trimmed). -/
def extractValue (raw : List Char) : String :=
  let t := jsTrim raw
  if "<![CDATA[".data.isPrefixOf t && "]]>".data.isSuffixOf t && t.length ≥ 12 then
    String.mk ((t.drop 9).take (t.length - 12))
  else String.mk t

/-- The coercion chain of parser.ts lines 57–70 on the extracted value:
JSON attempt for `[`/`\x7b`-prefixed values (kept as string on parse
failure), exact `true`/`false` booleans, then the
`!isNaN(Number(v)) && v !== ""` number branch. -/
def coerceValue (s : String) : PValue :=
  match s.data with
  | c :: _ =>
    if c = '[' || c = Char.ofNat 0x7b then
      if jsonParses s then PValue.pjson s else PValue.pstr s
    else if s = "true" then PValue.pbool true
    else if s = "false" then PValue.pbool false
    else if jsIsNumeric s && s ≠ "" then PValue.pnum s
    else PValue.pstr s
  | [] =>
    if jsIsNumeric s && s ≠ "" then PValue.pnum s else PValue.pstr s

/-- Full treatment of one captured `<param>` region. -/
def coerceParamValue (raw : List Char) : PValue :=
  coerceValue (extractValue raw)

/-- One step of the global regex `/<action>([\s\S]*?)<\/action>/g`: find the
next `<action>`, then the nearest later `</action>`.  Returns
(text before the match, captured body, rest after the match). -/
def nextActionMatch (cs : List Char) : Option (List Char × List Char × List Char) :=
  match findSub "<action>".data cs with
  | none => none
  | some i =>
    let afterOpen := cs.drop (i + 8)
    match findSub "</action>".data afterOpen with
    | none => none
    | some j => some (cs.take i, afterOpen.take j, afterOpen.drop (j + 9))

/-- All matches of the action regex: the captured bodies and the input with
the matched regions removed (`content.replace(actionRegex, "")`). -/
def extractActions (fuel : Nat) (cs : List Char) : List (List Char) × List Char :=
  match fuel with
  | 0 => ([], cs)
  | Nat.succ f =>
    match nextActionMatch cs with
    | none => ([], cs)
    | some (pre, body, rest) =>
      let (bodies, removed) := extractActions f rest
      (body :: bodies, pre ++ removed)

/-- Attempt the regex `<invoke\s+tool="([^"]+)">([\s\S]*?)<\/invoke>`
anchored at the head of `cs`; on success return (tool name, lazy body,
rest after the closing tag). -/
def tryTagAt (tag attr : List Char) (cs : List Char) :
    Option (List Char × List Char × List Char) :=
  if ('<' :: tag).isPrefixOf cs then
    let cs1 := cs.drop (tag.length + 1)
    let ws := cs1.takeWhile isJsWs
    if ws.isEmpty then none
    else
      let cs2 := cs1.drop ws.length
      if (attr ++ "=\"".data).isPrefixOf cs2 then
        let cs3 := cs2.drop (attr.length + 2)
        let name := cs3.takeWhile (· ≠ '"')
        if name.isEmpty then none
        else
          let cs4 := cs3.drop name.length
          if "\">".data.isPrefixOf cs4 then
            let cs5 := cs4.drop 2
            match findSub ("</".data ++ tag ++ ">".data) cs5 with
            | none => none
            | some j => some (name, cs5.take j, cs5.drop (j + tag.length + 3))
          else none
      else none
  else none

/-- Global scan for a tag regex: on a failed attempt advance one character,
on a match continue after it (`String.prototype.matchAll`). -/
def scanTags (tag attr : List Char) (fuel : Nat) (cs : List Char) :
    List (List Char × List Char) :=
  match fuel with
  | 0 => []
  | Nat.succ f =>
    match cs with
    | [] => []
    | _ :: tail =>
      match tryTagAt tag attr cs with
      | some (name, body, rest) => (name, body) :: scanTags tag attr f rest
      | none => scanTags tag attr f tail

/-- Matches of `/<param\s+name="([^"]+)">([\s\S]*?)<\/param>/g`. -/
def scanParams (cs : List Char) : List (List Char × List Char) :=
  scanTags "param".data "name".data cs.length cs

/-- Matches of `/<invoke\s+tool="([^"]+)">([\s\S]*?)<\/invoke>/g`. -/
def scanInvokes (cs : List Char) : List (List Char × List Char) :=
  scanTags "invoke".data "tool".data cs.length cs

/-- Result of `parseToolCalls`. -/
structure ParseResult where
  toolCalls : List ToolCall
  textContent : String
deriving Repr, DecidableEq

/-- `parseToolCalls(content)` (parser.ts lines 11–83): extract
`<action>` blocks, inside them `<invoke tool="...">` blocks, inside those
`<param name="...">` values run through `coerceParamValue`; the text part
is the input with the action regions removed and trimmed (untouched when
no action block matched). -/
def parseToolCalls (content : String) : ParseResult :=
  let cs := content.data
  let (bodies, removed) := extractActions cs.length cs
  if bodies.isEmpty then
    { toolCalls := [], textContent := content }
  else
    let calls := bodies.flatMap (fun actionContent =>
      (scanInvokes actionContent).map (fun inv =>
        { tool := String.mk inv.1
          params := (scanParams inv.2).foldl
            (fun ps pm => paramsInsert ps (String.mk pm.1) (coerceParamValue pm.2))
            [] } ))
    { toolCalls := calls, textContent := String.mk (jsTrim removed) }

/-! ## POSIX path functions (Node `path`)

The workspace runs on POSIX paths.  `path.normalize`/`path.resolve` are
embedded segment-wise; trailing-slash preservation of Node's `normalize`
is not modelled (no verified input ends in a slash). -/

/-- `path.isAbsolute` (POSIX). -/
def pathIsAbsolute (s : String) : Bool := strStartsWith s "/"

/-- Segment stack of normalization, reversed (`.` and empty segments are
dropped, `..` pops a non-`..` entry, or is kept when relative). -/
def pathNormStack (isAbs : Bool) (segs : List String) : List String :=
  segs.foldl (fun stack seg =>
    if seg = "" || seg = "." then stack
    else if seg = ".." then
      match stack with
      | [] => if isAbs then [] else [".."]
      | top :: rest => if top = ".." then seg :: stack else rest
    else seg :: stack) []

/-- `path.normalize` (POSIX). -/
def pathNormalize (s : String) : String :=
  let isAbs := pathIsAbsolute s
  let stack := (pathNormStack isAbs (strSplitOnChar (Char.ofNat 47) s)).reverse
  if isAbs then "/" ++ strJoin "/" stack
  else if stack.isEmpty then "." else strJoin "/" stack

/-- `path.resolve(root, p)` for an absolute `root`. -/
def pathResolve (root p : String) : String :=
  if pathIsAbsolute p then pathNormalize p
  else pathNormalize (root ++ "/" ++ p)

/-- `path.join(a, b)` (POSIX, two arguments). -/
def pathJoin (a b : String) : String := pathNormalize (a ++ "/" ++ b)

/-- Non-empty segments of a normalized absolute path. -/
def pathSegs (s : String) : List String := (strSplitOnChar (Char.ofNat 47) s).filter (· ≠ "")

/-- Longest common prefix length of two segment lists. -/
def commonPrefixLen : List String → List String → Nat
  | a :: as, b :: bs => if a = b then commonPrefixLen as bs + 1 else 0
  | _, _ => 0

/-- `path.dirname` (POSIX) on a normalized path. -/
def pathDirname (s : String) : String :=
  let segs := pathSegs s
  if pathIsAbsolute s then
    match segs with
    | [] => "/"
    | [_] => "/"
    | _ => "/" ++ strJoin "/" (segs.dropLast)
  else
    match segs with
    | [] => "."
    | [_] => "."
    | _ => strJoin "/" (segs.dropLast)

/-- `path.relative(from, to)` for normalized absolute paths. -/
def pathRelative (fromP toP : String) : String :=
  let f := pathSegs fromP
  let t := pathSegs toP
  let k := commonPrefixLen f t
  strJoin "/" (List.replicate (f.length - k) ".." ++ t.drop k)

/-- The spec's notion of descendant: `p` lies inside the workspace `root`
(equal to it or below it as a directory subtree). -/
def isDescendantOf (p root : String) : Bool :=
  p = root || (root ++ "/").data.isPrefixOf p.data

/-! ## Tool results and the filesystem model -/

/-- A metadata value of a `ToolResult.metadata` record. -/
inductive MetaV where
  | mstr (s : String)
  | mnat (n : Nat)
  | mbool (b : Bool)
  | mnull
deriving Repr, DecidableEq

/-- `ToolResult { success, output?, error?, metadata? }` (src/tools/types.ts). -/
structure ToolResult where
  success : Bool
  output : Option String := none
  error : Option String := none
  metadata : List (String × MetaV) := []
deriving Repr, DecidableEq

/-- Explicit filesystem state: file contents keyed by path, plus the set of
directories.  Write/mkdir I/O faults (EACCES, ENOSPC, …) are not modelled:
in this model every attempted write succeeds, so the handlers' OS-error
catch branches are unreachable. -/
structure Fs where
  files : List (String × String)
  dirs : List String
deriving Repr, DecidableEq

/-- Read a file (`fs.readFile`); `none` is ENOENT. -/
def Fs.read (fs : Fs) (p : String) : Option String :=
  (fs.files.find? (fun e => e.1 = p)).map (·.2)

/-- Write (create or overwrite) a file (`fs.writeFile`). -/
def Fs.write (fs : Fs) (p c : String) : Fs :=
  if fs.files.any (fun e => e.1 = p) then
    { fs with files := fs.files.map (fun e => if e.1 = p then (p, c) else e) }
  else
    { fs with files := fs.files ++ [(p, c)] }

/-- A directory exists (`fs.access` on a directory). -/
def Fs.hasDir (fs : Fs) (d : String) : Bool := fs.dirs.contains d

/-- `fs.mkdir(dir, { recursive: true })` (never fails in this model). -/
def Fs.mkdirRec (fs : Fs) (d : String) : Fs :=
  if fs.dirs.contains d then fs else { fs with dirs := fs.dirs ++ [d] }

/-! ## read_file (src/tools/implementations/read_file.ts, handler lines 31–62)

`cwd` is `process.cwd()`, against which Node resolves a relative path in
`fs.readFile`.  A non-string `path` makes `filePath.includes` throw; the
catch at line 55 turns any thrown error into the generic failure, whose
OS message we abbreviate to the error name. -/

def readFileHandler (cwd : String) (fs : Fs) (params : List (String × PValue)) :
    ToolResult :=
  match paramsGet params "path" with
  | some (.pstr filePath) =>
    if strIncludes ".." filePath && !pathIsAbsolute filePath then
      { success := false
        error := some "不允許使用相對路徑 '..'，請使用絕對路徑或工作區內的相對路徑" }
    else
      match fs.read (pathResolve cwd filePath) with
      | some content =>
        { success := true
          output := some content
          metadata := [("path", .mstr filePath), ("size", .mnat content.length),
                       ("lines", .mnat (strSplitOnChar (Char.ofNat 10) content).length)] }
      | none => { success := false, error := some "讀取文件失敗: ENOENT" }
  | _ => { success := false, error := some "讀取文件失敗: TypeError" }

/-! ## write_file (src/tools/implementations/write_file.ts, handler lines 36–158) -/

/-- Number of `\n` characters in `s` (`(content.match(/\n/g) || []).length`). -/
def countNewlines (s : String) : Nat := s.data.count '\n'

def writeFileHandler (ws : String) (fs : Fs) (params : List (String × PValue)) :
    ToolResult × Fs :=
  match paramsGet params "path" with
  | some (.pstr p0) =>
    let inputPath := String.mk (jsTrim p0.data)
    if inputPath = "" then
      ({ success := false, error := some "路徑參數無效：必須是非空字符串" }, fs)
    else
      match paramsGet params "content" with
      | some (.pstr content) =>
        let createDirs := paramsGet params "create_dirs" ≠ some (.pbool false)
        let absolutePath :=
          if pathIsAbsolute inputPath then pathNormalize inputPath
          else pathResolve ws inputPath
        if !strStartsWith absolutePath ws then
          ({ success := false
             error := some ("🔒 安全檢查失敗：路徑遍歷攻擊檢測\n路徑 \"" ++ inputPath ++
               "\" 解析到工作區外: " ++ absolutePath ++ "\n僅允許在工作區內操作: " ++ ws) }, fs)
        else if strIncludes "../" inputPath || strIncludes "..\\" inputPath ||
            strIncludes "%2e%2e" inputPath then
          ({ success := false
             error := some ("🔒 安全檢查失敗：路徑包含可疑字符 \"" ++ inputPath ++ "\"") }, fs)
        else
          let fileExisted := (fs.read absolutePath).isSome
          let dir := pathDirname absolutePath
          if !createDirs && !fs.hasDir dir then
            ({ success := false
               error := some ("目錄不存在且 create_dirs=false: " ++ dir ++
                 "\n請先創建目錄或設置 create_dirs=true") }, fs)
          else
            let fs := if createDirs then fs.mkdirRec dir else fs
            let fs := fs.write absolutePath content
            let lineCount := if content = "" then 0 else countNewlines content + 1
            ({ success := true
               output := some ("成功寫入文件: " ++ absolutePath)
               metadata := [("path", .mstr absolutePath),
                            ("relativePath", .mstr (pathRelative ws absolutePath)),
                            ("size", .mnat content.length),
                            ("lines", .mnat lineCount),
                            ("created", .mbool (!fileExisted))] }, fs)
      | _ => ({ success := false, error := some "內容參數無效：必須是字符串" }, fs)
  | _ => ({ success := false, error := some "路徑參數無效：必須是非空字符串" }, fs)

/-! ## list_directory (src/tools/implementations/list_directory.ts)

`rd` is the `fs.readdir` oracle: entry names with their `isDirectory`
flags, `none` for a thrown readdir error.  Fuel bounds the recursion
depth of `listDir`; any fuel above the filesystem's actual depth gives
the function's value. -/

/-- Walk the entries of one directory (`listDir`'s `for` loop); `sub` is
the recursive call into a subdirectory. -/
def listEntriesGo (includeHidden recursive : Bool) (dirPath pre : String)
    (sub : String → String → Option (List String)) :
    List (String × Bool) → Option (List String)
  | [] => some []
  | (name, isDir) :: rest =>
    if !includeHidden && strStartsWith name "." then
      listEntriesGo includeHidden recursive dirPath pre sub rest
    else
      let displayPath := pre ++ name
      if isDir then
        if recursive then
          match sub (pathJoin dirPath name) (displayPath ++ "/") with
          | none => none
          | some subEntries =>
            (listEntriesGo includeHidden recursive dirPath pre sub rest).map
              (fun tail => (displayPath ++ "/") :: subEntries ++ tail)
        else
          (listEntriesGo includeHidden recursive dirPath pre sub rest).map
            (fun tail => (displayPath ++ "/") :: tail)
      else
        (listEntriesGo includeHidden recursive dirPath pre sub rest).map
          (fun tail => displayPath :: tail)

/-- `listDir(dirPath, recursive, includeHidden, prefix)`. -/
def listDirFuel (rd : String → Option (List (String × Bool))) :
    Nat → String → Bool → Bool → String → Option (List String)
  | 0, _, _, _, _ => none
  | Nat.succ f, dirPath, recursive, includeHidden, pre =>
    match rd dirPath with
    | none => none
    | some entries =>
      listEntriesGo includeHidden recursive dirPath pre
        (fun full p => listDirFuel rd f full recursive includeHidden p) entries

def listDirectoryHandler (rd : String → Option (List (String × Bool)))
    (fuel : Nat) (params : List (String × PValue)) : ToolResult :=
  let pathVal := paramsGet params "path"
  match pathVal with
  | some (.pnum _) | some (.pjson _) =>
    -- a truthy non-string makes `dirPath.includes` throw; caught at line 66
    { success := false, error := some "列出目錄失敗: TypeError" }
  | _ =>
    let dirPath := match pathVal with
      | some (.pstr s) => if s = "" then "." else s
      | _ => "."
    let recursive := paramsGet params "recursive" = some (.pbool true)
    let includeHidden := paramsGet params "include_hidden" = some (.pbool true)
    if strIncludes ".." dirPath && !pathIsAbsolute dirPath then
      { success := false
        error := some "不允許使用相對路徑 '..'，請使用絕對路徑或工作區內的相對路徑" }
    else
      match listDirFuel rd fuel dirPath recursive includeHidden "" with
      | none => { success := false, error := some "列出目錄失敗: ENOENT" }
      | some entries =>
        { success := true
          output := some (strJoin "\n" entries)
          metadata := [("path", .mstr dirPath), ("count", .mnat entries.length),
                       ("recursive", .mbool recursive)] }

/-! ## apply_diff (`applyDiffTool` and `applyUnifiedDiff`) -/

/-- Digits to a natural number (`parseInt` on a digit capture). -/
def natOfDigits (ds : List Char) : Nat :=
  ds.foldl (fun n c => n * 10 + (c.toNat - 48)) 0

/-- Attempt `/@@ -(\d+),?\d* \+(\d+),?\d* @@/` anchored at this position;
returns the first capture. -/
def tryHunkAt (cs : List Char) : Option Nat :=
  if "@@ -".data.isPrefixOf cs then
    let cs := cs.drop 4
    let d1 := cs.takeWhile isDig
    if d1.isEmpty then none
    else
      let cs := cs.drop d1.length
      let cs := match cs with | ',' :: r => r | _ => cs
      let cs := cs.dropWhile isDig
      match cs with
      | ' ' :: '+' :: cs2 =>
        let d2 := cs2.takeWhile isDig
        if d2.isEmpty then none
        else
          let cs2 := cs2.drop d2.length
          let cs2 := match cs2 with | ',' :: r => r | _ => cs2
          let cs2 := cs2.dropWhile isDig
          if " @@".data.isPrefixOf cs2 then some (natOfDigits d1) else none
      | _ => none
  else none

/-- Unanchored regex search for the hunk header pattern. -/
def searchHunk : List Char → Option Nat
  | [] => none
  | c :: rest =>
    match tryHunkAt (c :: rest) with
    | some n => some n
    | none => searchHunk rest

/-- One diff line of `applyUnifiedDiff`'s walk.  State is
(originalIndex, inHunk, result).  Out-of-range `originalLines[i]` is
`undefined` in JS, which `Array.prototype.join` renders as the empty
string, hence `getD ""`. -/
def diffStep (originalLines : List String) (st : Nat × Bool × List String)
    (line : String) : Nat × Bool × List String :=
  let (idx, inHunk, res) := st
  if strStartsWith line "@@" then
    match searchHunk line.data with
    | some n1 =>
      let start := n1 - 1
      let count := start - idx
      (idx + count, true,
        res ++ (List.range count).map (fun k => originalLines.getD (idx + k) ""))
    | none => (idx, inHunk, res)
  else if !inHunk then (idx, inHunk, res)
  else if strStartsWith line "---" || strStartsWith line "+++" || strStartsWith line "\\" then
    (idx, inHunk, res)
  else if strStartsWith line "+" then (idx, inHunk, res ++ [strDrop1 line])
  else if strStartsWith line "-" then (idx + 1, inHunk, res)
  else if strStartsWith line " " then (idx + 1, inHunk, res ++ [strDrop1 line])
  else (idx + 1, inHunk, res ++ [line])

/-- `applyUnifiedDiff(original, diff)` (throws on a diff without `@@`). -/
def applyUnifiedDiff (original diff : String) : Except String String :=
  if !strIncludes "@@" diff then
    .error "Invalid diff format: missing hunk markers (@@)"
  else
    let originalLines := strSplitOnChar (Char.ofNat 10) original
    let diffLines := strSplitOnChar (Char.ofNat 10) diff
    let (idx, _, res) := diffLines.foldl (diffStep originalLines) (0, false, [])
    .ok (strJoin "\n" (res ++ originalLines.drop idx))

/-- `applyDiffTool.handler` (part of the diff tool module, lines 112–302).
`ws` is `process.cwd()`. -/
def applyDiffHandler (ws : String) (fs : Fs) (params : List (String × PValue)) :
    ToolResult × Fs :=
  match paramsGet params "path" with
  | some (.pstr p0) =>
    let inputPath := String.mk (jsTrim p0.data)
    if inputPath = "" then
      ({ success := false, error := some "路徑參數無效：必須是非空字符串" }, fs)
    else
      match paramsGet params "diff" with
      | some (.pstr d0) =>
        let diffContent := String.mk (jsTrim d0.data)
        if diffContent = "" then
          ({ success := false, error := some "Diff 參數無效：必須是非空字符串" }, fs)
        else if !strIncludes "@@" diffContent && !strStartsWith diffContent "---" then
          ({ success := false
             error := some "Diff 格式無效：不是有效的 unified diff 格式\n提示：應包含 @@ hunk 標記或 --- 文件標記" }, fs)
        else
          let createBackup := paramsGet params "create_backup" ≠ some (.pbool false)
          let absolutePath :=
            if pathIsAbsolute inputPath then pathNormalize inputPath
            else pathResolve ws inputPath
          if !strStartsWith absolutePath ws then
            ({ success := false
               error := some ("🔒 安全檢查失敗：路徑遍歷攻擊檢測\n路徑 \"" ++ inputPath ++
                 "\" 解析到工作區外: " ++ absolutePath ++ "\n僅允許在工作區內操作: " ++ ws) }, fs)
          else if strIncludes "../" inputPath || strIncludes "..\\" inputPath ||
              strIncludes "%2e%2e" inputPath then
            ({ success := false
               error := some ("🔒 安全檢查失敗：路徑包含可疑字符 \"" ++ inputPath ++ "\"") }, fs)
          else
            let readRes := fs.read absolutePath
            let origOpt : Option (String × Bool) :=
              match readRes with
              | some o => some (o, true)
              | none =>
                if strIncludes "--- /dev/null" diffContent ||
                    strIncludes "--- a/dev/null" diffContent then
                  some ("", false)
                else none
            match origOpt with
            | none =>
              ({ success := false
                 error := some ("文件不存在: " ++ absolutePath ++
                   "\n提示：如果要創建新文件，diff 應包含 \"--- /dev/null\"") }, fs)
            | some (original, fileExists) =>
              let backupPath : Option String :=
                if createBackup && fileExists && original ≠ "" then
                  some (absolutePath ++ ".backup")
                else none
              let fs := match backupPath with
                | some bp => fs.write bp original
                | none => fs
              match applyUnifiedDiff original diffContent with
              | .error msg =>
                ({ success := false
                   error := some ("應用 diff 失敗: " ++ msg ++ "\n提示：請檢查 diff 格式是否正確") }, fs)
              | .ok patched =>
                let fs := fs.mkdirRec (pathDirname absolutePath)
                let fs := fs.write absolutePath patched
                let originalLineCount := (strSplitOnChar (Char.ofNat 10) original).length
                let patchedLineCount := (strSplitOnChar (Char.ofNat 10) patched).length
                ({ success := true
                   output := some ("成功應用補丁到文件: " ++ absolutePath)
                   metadata := [("path", .mstr absolutePath),
                                ("relativePath", .mstr (pathRelative ws absolutePath)),
                                ("fileCreated", .mbool (!fileExists)),
                                ("originalSize", .mnat original.length),
                                ("patchedSize", .mnat patched.length),
                                ("originalLines", .mnat originalLineCount),
                                ("patchedLines", .mnat patchedLineCount),
                                ("linesAdded", .mnat (patchedLineCount - originalLineCount)),
                                ("linesRemoved", .mnat (originalLineCount - patchedLineCount)),
                                ("backup", match backupPath with
                                           | some bp => .mstr bp
                                           | none => .mnull)] }, fs)
      | _ => ({ success := false, error := some "Diff 參數無效：必須是非空字符串" }, fs)
  | _ => ({ success := false, error := some "路徑參數無效：必須是非空字符串" }, fs)

/-! ## Tool definitions and the executor (src/tools/types.ts, executor.ts) -/

/-- Declared parameter type. -/
inductive PType where
  | tstring | tnumber | tboolean | tarray | tobject
deriving Repr, DecidableEq

structure ToolParameter where
  name : String
  type : PType
  description : String
  required : Bool
deriving Repr, DecidableEq

structure ToolDefinition where
  name : String
  description : String
  safe : Bool := false
  parameters : List ToolParameter
deriving Repr, DecidableEq

/-- `readFileTool.definition`. -/
def readFileDef : ToolDefinition :=
  { name := "read_file", description := "讀取指定路徑的文件內容", safe := true
    parameters :=
      [⟨"path", .tstring, "文件的相對或絕對路徑", true⟩,
       ⟨"encoding", .tstring, "文件編碼，默認 utf-8", false⟩] }

/-- `writeFileTool.definition` (no `safe` field, hence mutating). -/
def writeFileDef : ToolDefinition :=
  { name := "write_file", description := "寫入內容到指定路徑的文件（會覆蓋原有內容）"
    parameters :=
      [⟨"path", .tstring, "文件的相對或絕對路徑", true⟩,
       ⟨"content", .tstring, "要寫入的內容", true⟩,
       ⟨"create_dirs", .tboolean, "如果目錄不存在，是否自動創建，默認 true", false⟩] }

/-- `listDirectoryTool.definition`. -/
def listDirectoryDef : ToolDefinition :=
  { name := "list_directory", description := "列出指定目錄下的文件和子目錄", safe := true
    parameters :=
      [⟨"path", .tstring, "目錄的相對或絕對路徑，默認為當前目錄", false⟩,
       ⟨"recursive", .tboolean, "是否遞迴列出子目錄，默認 false", false⟩,
       ⟨"include_hidden", .tboolean, "是否包含隱藏文件（以 . 開頭），默認 false", false⟩] }

/-- `applyDiffTool.definition`. -/
def applyDiffDef : ToolDefinition :=
  { name := "apply_diff", description := "將 unified diff 補丁應用到文件"
    parameters :=
      [⟨"path", .tstring, "目標文件的路徑", true⟩,
       ⟨"diff", .tstring, "unified diff 格式的補丁內容", true⟩,
       ⟨"create_backup", .tboolean, "是否創建備份文件，默認 true", false⟩] }

/-- `ToolExecutor.validateParams` (executor.ts lines 246–262): walk the
required parameters in declaration order and fail on the first one whose
name is not a key of `params`.  Nothing else is checked. -/
def validateParams (tc : ToolCall) (d : ToolDefinition) : Option String :=
  ((d.parameters.filter (·.required)).find? (fun p => !paramsHas tc.params p.name)).map
    (fun p => "缺少必需參數: " ++ p.name ++ " (" ++ p.description ++
      ")。請確認工具調用的 XML 格式包含所有必需的 <param> 標籤。")

/-- The spec's parameter-schema conformance: every required parameter is
present and every provided parameter whose name is declared has a value of
the declared type, where a numeric string counts as a number and
`"true"`/`"false"` count as booleans. -/
def paramsConform (d : ToolDefinition) (ps : List (String × PValue)) : Bool :=
  (d.parameters.filter (·.required)).all (fun p => paramsHas ps p.name) &&
  ps.all (fun kv =>
    match d.parameters.find? (fun p => p.name = kv.1) with
    | none => true
    | some p =>
      match p.type, kv.2 with
      | .tstring, .pstr _ => true
      | .tnumber, .pnum _ => true
      | .tnumber, .pstr s => jsIsNumeric s && s ≠ ""
      | .tboolean, .pbool _ => true
      | .tboolean, .pstr s => s = "true" || s = "false"
      | .tarray, .pjson _ => true
      | .tobject, .pjson _ => true
      | _, _ => false)

/-- Safety mode of the execution context. -/
inductive SafetyMode where
  | dryRun | review | autoApply
deriving Repr, DecidableEq

/-- `ToolExecutor.validateFilePath` (executor.ts lines 28–61).  Note the
source's suspicious pattern `'..\\\\'` denotes two literal backslashes,
unlike the single-backslash pattern inside the handlers. -/
def validateFilePath (workspaceRoot filePath : String) : Except String String :=
  if filePath = "" then .error "文件路径无效"
  else
    let absolutePath := pathResolve workspaceRoot filePath
    if !strStartsWith absolutePath workspaceRoot then
      .error ("路径遍历攻击检测：路径 \"" ++ filePath ++ "\" 在工作区外")
    else if strIncludes "../" filePath || strIncludes "..\\\\" filePath ||
        strIncludes "%2e%2e" filePath then
      .error ("路径包含可疑字符：\"" ++ filePath ++ "\"")
    else .ok absolutePath

/-- Control-flow outcome of `ToolExecutor.execute` (executor.ts lines
66–148) up to the point where the registered handler would run.  The
review-mode prompt answer and the handler's I/O result are oracle inputs
of the interpretation below. -/
inductive ExecOutcome where
  | unknownTool (e : String)
  | invalidParams (e : String)
  | userCancelled
  | dryRunSimulated
  | securityFail (e : String)
  | invokeHandler (backupFor : Option String)
deriving Repr, DecidableEq

/-- The `params.path || params.file` / `typeof === 'string'` selection of
the pre-backup path validation inside `execute`. -/
def mutationTargetPath (ps : List (String × PValue)) : Option String :=
  let v := match paramsGet ps "path" with
    | some v => if v.truthy then some v else paramsGet ps "file"
    | none => paramsGet ps "file"
  match v with
  | some (.pstr s) => if s = "" then none else some s
  | _ => none

/-- `ToolExecutor.execute` as a decision function: which terminal branch is
taken before (or instead of) invoking the handler. -/
def executeOutcome (lookup : Option ToolDefinition) (mode : SafetyMode)
    (approved : Bool) (workspaceRoot : String) (tc : ToolCall) : ExecOutcome :=
  match lookup with
  | none => .unknownTool ("工具 \"" ++ tc.tool ++ "\" 不存在")
  | some d =>
    match validateParams tc d with
    | some e => .invalidParams e
    | none =>
      if mode = .review && !d.safe && !approved then .userCancelled
      else if mode = .dryRun then .dryRunSimulated
      else
        if tc.tool = "write_file" || tc.tool = "apply_diff" then
          match mutationTargetPath tc.params with
          | some fp =>
            match validateFilePath workspaceRoot fp with
            | .error e => .securityFail ("🔒 安全检查失败: " ++ e)
            | .ok sanitized => .invokeHandler (some sanitized)
          | none => .invokeHandler none
        else .invokeHandler none

/-- Interpretation of `execute` given the handler outcome oracle: the
result returned to the caller. -/
def executeResult (lookup : Option ToolDefinition) (mode : SafetyMode)
    (approved : Bool) (workspaceRoot : String)
    (handler : ToolCall → ToolResult) (tc : ToolCall) : ToolResult :=
  match executeOutcome lookup mode approved workspaceRoot tc with
  | .unknownTool e => { success := false, error := some e }
  | .invalidParams e => { success := false, error := some e }
  | .userCancelled => { success := false, error := some "用戶取消了操作" }
  | .dryRunSimulated => { success := true, output := some "[DRY-RUN] 模擬執行成功" }
  | .securityFail e => { success := false, error := some e }
  | .invokeHandler _ => handler tc

/-- `ToolExecutor.executeAll(toolCalls, continueOnError)` (executor.ts
lines 226–241): execute in order; after a failed call, stop unless the
mode is dry-run or `continueOnError` is set.  `execOne` abstracts
`this.execute`. -/
def executeAll (execOne : ToolCall → ToolResult) (mode : SafetyMode)
    (continueOnError : Bool) : List ToolCall → List ToolResult
  | [] => []
  | tc :: rest =>
    let r := execOne tc
    r :: (if !r.success && mode ≠ SafetyMode.dryRun && !continueOnError then []
          else executeAll execOne mode continueOnError rest)

/-! ## LLM transport retry (src/llm/client.ts lines 11–80) -/

/-- `/rate.?limit/i` at this position of an already-lowercased string
(`.` matches any character except line terminators). -/
def rateLimitAt (cs : List Char) : Bool :=
  "rate".data.isPrefixOf cs &&
  (let r := cs.drop 4
   "limit".data.isPrefixOf r ||
   (match r with
    | c :: r2 =>
      !(c = '\n' || c = '\r' || c = Char.ofNat 0x2028 || c = Char.ofNat 0x2029) &&
      "limit".data.isPrefixOf r2
    | [] => false))

/-- Unanchored search for `/rate.?limit/i` on a lowercased string. -/
def rateLimitSearch : List Char → Bool
  | [] => false
  | c :: rest => rateLimitAt (c :: rest) || rateLimitSearch rest

/-- `isRetryableError` (client.ts lines 26–29): the error message matches
one of `RETRYABLE_ERROR_PATTERNS` — `/network/i`, `/timeout/i`,
`/econnreset/i`, `/enotfound/i`, `/503/`, `/502/`, `/504/`, `/429/`,
`/rate.?limit/i`. -/
def isRetryableError (msg : String) : Bool :=
  let lower := msg.data.map Char.toLower
  containsSub "network".data lower || containsSub "timeout".data lower ||
  containsSub "econnreset".data lower || containsSub "enotfound".data lower ||
  containsSub "503".data msg.data || containsSub "502".data msg.data ||
  containsSub "504".data msg.data || containsSub "429".data msg.data ||
  rateLimitSearch lower

/-- Observable trace of `fetchWithRetry`: the final result, the number of
invocations of `fn`, and the waits performed (milliseconds, exact
rationals). -/
structure RetryTrace (α : Type) where
  result : Except String α
  attemptsUsed : Nat
  delays : List ℚ
deriving Repr

/-- The backoff wait before the next retry (client.ts lines 63–67):
`exponentialDelay = retryDelay * 2^attempt`, plus
`exponentialDelay * 0.25 * ((Math.random() - 0.5) * 2)` jitter — `j`
models the `[-1, 1]`-valued factor — clamped at 0. -/
def retryWait (retryDelay : ℚ) (attempt : Nat) (j : ℚ) : ℚ :=
  let expDelay := retryDelay * 2 ^ attempt
  max 0 (expDelay + expDelay * (1/4 : ℚ) * j)

/-- The retry loop of `fetchWithRetry` (client.ts lines 45–74).
`outcomes n` is the result of the `n`-th invocation of `fn` (0-based);
`jitter n ∈ [-1, 1]` models `(Math.random() - 0.5) * 2` of that attempt.
`attemptsLeft` starts at `totalAttempts` and the last attempt breaks out
to the aggregate error without a retryability check. -/
def fetchGo (outcomes : Nat → Except String α) (retryDelay : ℚ)
    (jitter : Nat → ℚ) (totalAttempts : Nat) :
    Nat → Nat → List ℚ → RetryTrace α
  | 0, attempt, acc =>
    { result := .error "unreachable: totalAttempts ≥ 1", attemptsUsed := attempt,
      delays := acc }
  | 1, attempt, acc =>
    match outcomes attempt with
    | .ok v => { result := .ok v, attemptsUsed := attempt + 1, delays := acc }
    | .error e =>
      { result := .error ("API 请求在 " ++ toString totalAttempts ++
          " 次尝试后仍然失败\n最后错误: " ++ e)
        attemptsUsed := attempt + 1, delays := acc }
  | Nat.succ (Nat.succ left), attempt, acc =>
    match outcomes attempt with
    | .ok v => { result := .ok v, attemptsUsed := attempt + 1, delays := acc }
    | .error e =>
      if !isRetryableError e then
        { result := .error e, attemptsUsed := attempt + 1, delays := acc }
      else
        fetchGo outcomes retryDelay jitter totalAttempts (left + 1) (attempt + 1)
          (acc ++ [retryWait retryDelay attempt (jitter attempt)])

/-- `fetchWithRetry(fn, maxRetries = 3, retryDelay = 1000)`. -/
def fetchWithRetry (outcomes : Nat → Except String α) (jitter : Nat → ℚ)
    (maxRetries : Nat := 3) (retryDelay : ℚ := 1000) : RetryTrace α :=
  fetchGo outcomes retryDelay jitter (maxRetries + 1) (maxRetries + 1) 0 []

/-! ## Conversation store: token estimation and auto-compression
(src/agent/orchestrator.ts lines 93–133) -/

inductive Role where
  | system | user | assistant | tool
deriving Repr, DecidableEq

structure ChatMessage where
  role : Role
  content : String
deriving Repr, DecidableEq

/-- Characters matched by `CHINESE_CHAR_PATTERN`
(`[一-鿿　-〿＀-￯]`). -/
def isCjkChar (c : Char) : Bool :=
  (0x4e00 ≤ c.toNat && c.toNat ≤ 0x9fff) ||
  (0x3000 ≤ c.toNat && c.toNat ≤ 0x303f) ||
  (0xff00 ≤ c.toNat && c.toNat ≤ 0xffef)

def countCjk (s : String) : Nat := s.data.countP isCjkChar

/-- Number of matches of `ENGLISH_WORD_PATTERN` (`[a-zA-Z]+`): maximal
letter runs. -/
def countWordsGo : List Char → Bool → Nat
  | [], _ => 0
  | c :: rest, inWord =>
    if isAsciiLetter c then
      (if inWord then 0 else 1) + countWordsGo rest true
    else countWordsGo rest false

def countWords (s : String) : Nat := countWordsGo s.data false

/-- `estimateTokens` in quarter-token units: `1.5·cjk + 0.25·words` per
message is `(6·cjk + words)/4`, exactly representable. -/
def tokenQuarters (msgs : List ChatMessage) : Nat :=
  msgs.foldl (fun t m => t + 6 * countCjk m.content + countWords m.content) 0

/-- `estimateTokens(messages)`: `Math.ceil` of the quarter-token sum over
four.  (All the doubles involved — half- and quarter-integers of this
size, and the `8000 * 0.8 = 6400` threshold — are exact.) -/
def estimateTokens (msgs : List ChatMessage) : Nat :=
  (tokenQuarters msgs + 3) / 4

def compressionMarker (n : Nat) : String :=
  "[對話歷史已自動壓縮，之前共 " ++ toString n ++ " 條消息]"

/-- `autoCompressMessages(messages)` at its only call site (default
`maxTokens = 8000`, threshold `6400`): when the estimate exceeds the
threshold and more than 10 messages exist, keep `messages[0]`, insert a
system-role marker, and keep the last six messages verbatim. -/
def autoCompressMessages (messages : List ChatMessage) : List ChatMessage :=
  if estimateTokens messages > 6400 && messages.length > 10 then
    match messages with
    | [] => messages
    | systemMsg :: _ =>
      let recent := messages.drop (messages.length - 6)
      let compressedCount := messages.length - recent.length - 1
      systemMsg :: ChatMessage.mk Role.system (compressionMarker compressedCount) :: recent
  else messages

/-! ## Orchestrator loop (src/agent/orchestrator.ts, `run`, lines 140–364)

The loop body per iteration, with the streamed LLM responses supplied as
a script (one full assembled assistant text per iteration) and the
executor's result as an oracle `execOne` (`this.toolExecutor.execute`).
The pre-loop augmentation of `messages[0].content` (memory summary, tool
documentation) rewrites only the system message's text and is not
modelled; no verified property reads that text.  Console output and the
memory recorder are not modelled. -/

structure LoopState where
  messages : List ChatMessage
  iterations : Nat
  toolCallsExecuted : Nat
  consecutiveFailures : Nat
  lastFailedTool : String
  finalResponse : String
deriving Repr, DecidableEq

structure OrchestratorResult where
  success : Bool
  finalResponse : String
  iterations : Nat
  toolCallsExecuted : Nat
  error : Option String := none
  messages : List ChatMessage
deriving Repr, DecidableEq

/-- The `for (const toolCall of toolCalls)` body (orchestrator.ts lines
246–311): execute each call, build its tagged feedback block, update the
executed counter and the consecutive-failure tracking.  No call is ever
skipped. -/
def processToolCalls (execOne : ToolCall → ToolResult) :
    List ToolCall → Nat → Nat → String → List String × Nat × Nat × String
  | [], executed, cf, lft => ([], executed, cf, lft)
  | tc :: rest, executed, cf, lft =>
    let r := execOne tc
    let resultText :=
      if r.success then
        match r.output with
        | some s => if s = "" then "(成功，無輸出)" else s
        | none => "(成功，無輸出)"
      else "錯誤: " ++ r.error.getD "undefined"
    let (cf, lft) :=
      if r.success then (0, "")
      else if lft = tc.tool then (cf + 1, lft) else (1, tc.tool)
    let (texts, executed', cf', lft') :=
      processToolCalls execOne rest (executed + 1) cf lft
    (("[工具: " ++ tc.tool ++ "]\n" ++ resultText) :: texts, executed', cf', lft')

/-- The successful exit value of `run` (lines 345–352): `messages.slice(1)`
drops the mutated system message. -/
def mkLoopResult (st : LoopState) : OrchestratorResult :=
  { success := true, finalResponse := st.finalResponse,
    iterations := st.iterations, toolCallsExecuted := st.toolCallsExecuted,
    messages := st.messages.drop 1 }

/-- The `while (true)` loop of `run`.  `none` means the supplied script
ended while the loop still awaited another LLM response (the real loop
would keep iterating — there is no iteration-ceiling check). -/
def runLoop (execOne : ToolCall → ToolResult) (mode : SafetyMode) :
    List String → LoopState → Option OrchestratorResult
  | [], _ => none
  | resp :: script, st =>
    let st := { st with iterations := st.iterations + 1 }
    let st := { st with messages := autoCompressMessages st.messages }
    let parsed := parseToolCalls resp
    let st := { st with finalResponse := parsed.textContent }
    if parsed.toolCalls.isEmpty then some (mkLoopResult st)
    else
      let st := { st with messages := st.messages ++ [ChatMessage.mk Role.assistant resp] }
      let (texts, executed, cf, lft) :=
        processToolCalls execOne parsed.toolCalls st.toolCallsExecuted
          st.consecutiveFailures st.lastFailedTool
      let st := { st with toolCallsExecuted := executed,
                          consecutiveFailures := cf, lastFailedTool := lft }
      if st.consecutiveFailures ≥ 3 then some (mkLoopResult st)
      else
        let feedback := "[工具執行結果]\n" ++ strJoin "\n\n" texts ++
          "\n\n[重要提示] 請向用戶簡潔地解釋以上結果的含義。不要只顯示原始數據，要說明這些結果代表什麼、有什麼重要信息。"
        let st := { st with messages := st.messages ++ [ChatMessage.mk Role.user feedback] }
        if mode = SafetyMode.dryRun && st.iterations = 1 then some (mkLoopResult st)
        else runLoop execOne mode script st

/-- `AgentOrchestrator.run(initialMessages)`.  The constructor stores
`maxIterations` (default 100, console warning above 1000) but `run`'s
loop never consults it, so the result cannot depend on it. -/
def orchestratorRun (maxIterations : Nat) (execOne : ToolCall → ToolResult)
    (mode : SafetyMode) (script : List String)
    (initialMessages : List ChatMessage) : Option OrchestratorResult :=
  let _ := maxIterations
  runLoop execOne mode script
    { messages := initialMessages, iterations := 0, toolCallsExecuted := 0,
      consecutiveFailures := 0, lastFailedTool := "", finalResponse := "" }

/-! ## Spec-side definitions and scenario constants -/

/-- Metadata lookup on a tool result. -/
def metaGet (r : ToolResult) (k : String) : Option MetaV :=
  (r.metadata.find? (fun e => e.1 = k)).map (·.2)

/-- The value-coercion rule as the claim words it, applied to the extracted
value: structured data for `[`/`\x7b` prefixes (string on parse failure),
exact `true`/`false` booleans, then "coerced to a number exactly when it
parses as a finite number" — finiteness modelled as "numeric and not an
`Infinity` literal" (double overflow, e.g. `1e309`, is not modelled; no
verified input exercises it). -/
def specCoerceClaimed (v : String) : PValue :=
  match v.data with
  | c :: _ =>
    if c = '[' || c = Char.ofNat 0x7b then
      if jsonParses v then PValue.pjson v else PValue.pstr v
    else if v = "true" then PValue.pbool true
    else if v = "false" then PValue.pbool false
    else if v ≠ "" && jsIsNumeric v && !jsIsInfinityLiteral v then PValue.pnum v
    else PValue.pstr v
  | [] => PValue.pstr v

/-- The amended coercion rule: a non-empty value is coerced to a number
exactly when `Number(value)` is not `NaN` (which admits the non-finite
`±Infinity` literals). -/
def specCoerceAmended (v : String) : PValue :=
  match v.data with
  | c :: _ =>
    if c = '[' || c = Char.ofNat 0x7b then
      if jsonParses v then PValue.pjson v else PValue.pstr v
    else if v = "true" then PValue.pbool true
    else if v = "false" then PValue.pbool false
    else if v ≠ "" && jsIsNumeric v then PValue.pnum v
    else PValue.pstr v
  | [] => PValue.pstr v

/-- Batch execution as the amended claim words it: results for the leading
calls through the first failure; later calls are never executed and
produce no results. -/
def takeThroughFirstFailure (execOne : ToolCall → ToolResult) :
    List ToolCall → List ToolResult
  | [] => []
  | tc :: rest =>
    let r := execOne tc
    r :: (if r.success then takeThroughFirstFailure execOne rest else [])

/-- A handler-success oracle. -/
def okToolResult : ToolResult := { success := true, output := some "ok" }

/-- Executor oracle where every call succeeds. -/
def execOK : ToolCall → ToolResult := fun _ => okToolResult

/-- An assistant response carrying exactly one tool call. -/
def callResp : String :=
  "<action><invoke tool=\"read_file\"><param name=\"path\">a.txt</param></invoke></action>"

/-- An assistant response with no action block. -/
def plainResp : String := "done"

/-- The same failing `write_file` call, as an assistant response. -/
def failResp : String :=
  "<action><invoke tool=\"write_file\"><param name=\"path\">x</param><param name=\"content\">y</param></invoke></action>"

/-- An assistant response with a failing call followed by another call. -/
def twoCallResp : String :=
  "<action><invoke tool=\"write_file\"><param name=\"path\">x</param><param name=\"content\">y</param></invoke><invoke tool=\"read_file\"><param name=\"path\">x</param></invoke></action>"

/-- Executor oracle failing exactly on `write_file`. -/
def execFailWrite : ToolCall → ToolResult := fun tc =>
  if tc.tool = "write_file" then { success := false, error := some "boom" }
  else okToolResult

/-- Executor oracle where every call fails. -/
def execFailAll (errMsg : String) : ToolCall → ToolResult := fun _ =>
  { success := false, error := some errMsg }

/-- Initial conversation for the orchestrator scenarios. -/
def initMessages : List ChatMessage :=
  [ChatMessage.mk Role.system "sys", ChatMessage.mk Role.user "go"]

/-- 450 CJK characters; ten of these put the estimate at
`⌈(6·4500 + 1)/4⌉ = 6751 > 6400`. -/
def cjk450 : String := String.mk (List.replicate 450 '中')

/-- An 11-message conversation over the compression threshold. -/
def convo11 : List ChatMessage :=
  ChatMessage.mk Role.system "sys" ::
  [ChatMessage.mk Role.user cjk450, ChatMessage.mk Role.assistant cjk450,
   ChatMessage.mk Role.user cjk450, ChatMessage.mk Role.assistant cjk450,
   ChatMessage.mk Role.user cjk450, ChatMessage.mk Role.assistant cjk450,
   ChatMessage.mk Role.user cjk450, ChatMessage.mk Role.assistant cjk450,
   ChatMessage.mk Role.user cjk450, ChatMessage.mk Role.assistant cjk450]

/-! # Theorems -/

/-- C10: the workspace-containment check of the `write_file` and
`apply_diff` handlers is a string-prefix test on the normalized absolute
path, so the sibling path `workspaceRoot ++ "-tmp/file"` — which is not a
descendant of the workspace — passes the check and is written without a
path-violation error. -/
theorem C10_prefix_escape :
    (writeFileHandler "/workspace" (Fs.mk [] [])
        [("path", PValue.pstr "/workspace-tmp/file"),
         ("content", PValue.pstr "pwned")]).1.success = true ∧
    (writeFileHandler "/workspace" (Fs.mk [] [])
        [("path", PValue.pstr "/workspace-tmp/file"),
         ("content", PValue.pstr "pwned")]).2.read "/workspace-tmp/file" = some "pwned" ∧
    (applyDiffHandler "/workspace" (Fs.mk [("/workspace-tmp/b.txt", "x\n")] [])
        [("path", PValue.pstr "/workspace-tmp/b.txt"),
         ("diff", PValue.pstr "@@ -1,1 +1,1 @@\n-x\n+y")]).1.success = true ∧
    (applyDiffHandler "/workspace" (Fs.mk [("/workspace-tmp/b.txt", "x\n")] [])
        [("path", PValue.pstr "/workspace-tmp/b.txt"),
         ("diff", PValue.pstr "@@ -1,1 +1,1 @@\n-x\n+y")]).2.read "/workspace-tmp/b.txt" = some "y\n" ∧
    isDescendantOf "/workspace-tmp/file" "/workspace" = false ∧
    isDescendantOf "/workspace-tmp/b.txt" "/workspace" = false := by
  decide

/-- C5 counterexample: on the claim's exact scenario the returned metadata
reports `linesAdded = 0` and `linesRemoved = 0` (the handler computes them
as the clamped difference of total line counts, and the patched file has
as many lines as the original), not `1` and `1` as claimed. -/
theorem C5_counterexample :
    metaGet (applyDiffHandler "/ws" (Fs.mk [("/ws/a.txt", "one\ntwo\nthree\n")] [])
        [("path", PValue.pstr "a.txt"),
         ("diff", PValue.pstr "@@ -1,3 +1,3 @@\n one\n-two\n+TWO\n three\n")]).1
      "linesAdded" = some (MetaV.mnat 0) ∧
    metaGet (applyDiffHandler "/ws" (Fs.mk [("/ws/a.txt", "one\ntwo\nthree\n")] [])
        [("path", PValue.pstr "a.txt"),
         ("diff", PValue.pstr "@@ -1,3 +1,3 @@\n one\n-two\n+TWO\n three\n")]).1
      "linesRemoved" = some (MetaV.mnat 0) ∧
    some (MetaV.mnat 0) ≠ some (MetaV.mnat 1) := by
  decide

/-- C5 amended: on the claim's scenario, `a.txt.backup` holds the original
contents and `a.txt` the patched contents as claimed, but the metadata
reports `linesAdded = 0` and `linesRemoved = 0`, because the handler
computes them as `max 0` of the difference of the files' total line
counts rather than from the diff's `+`/`-` lines. -/
theorem C5_amended_apply_diff :
    (applyDiffHandler "/ws" (Fs.mk [("/ws/a.txt", "one\ntwo\nthree\n")] [])
        [("path", PValue.pstr "a.txt"),
         ("diff", PValue.pstr "@@ -1,3 +1,3 @@\n one\n-two\n+TWO\n three\n")]).1.success
      = true ∧
    (applyDiffHandler "/ws" (Fs.mk [("/ws/a.txt", "one\ntwo\nthree\n")] [])
        [("path", PValue.pstr "a.txt"),
         ("diff", PValue.pstr "@@ -1,3 +1,3 @@\n one\n-two\n+TWO\n three\n")]).2.read
      "/ws/a.txt.backup" = some "one\ntwo\nthree\n" ∧
    (applyDiffHandler "/ws" (Fs.mk [("/ws/a.txt", "one\ntwo\nthree\n")] [])
        [("path", PValue.pstr "a.txt"),
         ("diff", PValue.pstr "@@ -1,3 +1,3 @@\n one\n-two\n+TWO\n three\n")]).2.read
      "/ws/a.txt" = some "one\nTWO\nthree\n" ∧
    metaGet (applyDiffHandler "/ws" (Fs.mk [("/ws/a.txt", "one\ntwo\nthree\n")] [])
        [("path", PValue.pstr "a.txt"),
         ("diff", PValue.pstr "@@ -1,3 +1,3 @@\n one\n-two\n+TWO\n three\n")]).1
      "linesAdded" = some (MetaV.mnat 0) ∧
    metaGet (applyDiffHandler "/ws" (Fs.mk [("/ws/a.txt", "one\ntwo\nthree\n")] [])
        [("path", PValue.pstr "a.txt"),
         ("diff", PValue.pstr "@@ -1,3 +1,3 @@\n one\n-two\n+TWO\n three\n")]).1
      "linesRemoved" = some (MetaV.mnat 0) := by
  decide

/-- C1 counterexample: the `read_file` handler performs no
workspace-containment check at all — it only rejects relative paths
containing `..` — so the absolute path `/etc/passwd`, which is not a
descendant of the workspace, is read successfully instead of failing with
a path violation. -/
theorem C1_counterexample :
    (readFileHandler "/workspace" (Fs.mk [("/etc/passwd", "root:x:0:0:root")] [])
        [("path", PValue.pstr "/etc/passwd")]).success = true ∧
    (readFileHandler "/workspace" (Fs.mk [("/etc/passwd", "root:x:0:0:root")] [])
        [("path", PValue.pstr "/etc/passwd")]).output = some "root:x:0:0:root" ∧
    isDescendantOf (pathResolve "/workspace" "/etc/passwd") "/workspace" = false := by
  decide

/-- C2 counterexample: the executor's `validateParams` accepts a
`write_file` call whose required `path` parameter is a number (it checks
only key presence, never types, and coerces nothing), and `execute`
invokes the handler with that non-conforming params map instead of
failing with an invalid-arguments error. -/
theorem C2_counterexample :
    validateParams
      (ToolCall.mk "write_file" [("path", PValue.pnum "42"), ("content", PValue.pstr "x")])
      writeFileDef = none ∧
    paramsConform writeFileDef
      [("path", PValue.pnum "42"), ("content", PValue.pstr "x")] = false ∧
    executeResult (some writeFileDef) SafetyMode.autoApply true "/ws"
      (fun _ => { success := true, output := some "HANDLER-RAN" })
      (ToolCall.mk "write_file" [("path", PValue.pnum "42"), ("content", PValue.pstr "x")])
      = { success := true, output := some "HANDLER-RAN" } := by
  decide

set_option maxRecDepth 8192 in
/-- C6 counterexample: when the LLM emits the same failing `write_file`
call three iterations in a row the orchestrator does stop with
`success = true` and `iterations = 3`, but `finalResponse` is the parsed
text content of the last assistant message — here the empty string, which
names no tool; the advisory naming the tool goes to the console only. -/
theorem C6_counterexample :
    (runLoop (execFailAll "disk full") SafetyMode.autoApply
        [failResp, failResp, failResp]
        (LoopState.mk initMessages 0 0 0 "" "")).map
      (fun r => (r.success, r.iterations, r.toolCallsExecuted, r.finalResponse))
      = some (true, 3, 3, "") ∧
    strIncludes "write_file" "" = false := by
  decide

set_option maxRecDepth 8192 in
/-- C4 counterexample: in the orchestrator's turn loop a failure does not
skip the remaining calls of the turn — after the first (`write_file`)
call fails, the second (`read_file`) call is still executed
(`toolCallsExecuted = 2`) and its result is reported to the model in the
tool-result feedback message. -/
theorem C4_counterexample :
    (runLoop execFailWrite SafetyMode.autoApply [twoCallResp, "done2"]
        (LoopState.mk initMessages 0 0 0 "" "")).map
      (fun r => (r.toolCallsExecuted, r.iterations)) = some (2, 2) ∧
    (runLoop execFailWrite SafetyMode.autoApply [twoCallResp, "done2"]
        (LoopState.mk initMessages 0 0 0 "" "")).map
      (fun r => strIncludes "[工具: read_file]"
        ((r.messages.getD 2 (ChatMessage.mk Role.system "")).content))
      = some true := by
  decide

/-- C8 counterexample: a plain `500` status is a 5xx transport error, yet
`isRetryableError` does not match it (the pattern list names only
502/503/504/429 and the network/timeout words), so `fetchWithRetry`
propagates it immediately with no retry instead of retrying. -/
theorem C8_counterexample :
    (fetchWithRetry
        (fun n => if n = 0 then Except.error "500 Internal Server Error"
                  else Except.ok (42 : Nat))
        (fun _ => 0)).result = Except.error "500 Internal Server Error" ∧
    (fetchWithRetry
        (fun n => if n = 0 then Except.error "500 Internal Server Error"
                  else Except.ok (42 : Nat))
        (fun _ => 0)).attemptsUsed = 1 ∧
    isRetryableError "500 Internal Server Error" = false := by
  refine ⟨rfl, rfl, by decide⟩

/-- C9 counterexample: the parser coerces the parameter value `Infinity`
to a number (the code's test is `!isNaN(Number(v))`, and
`Number("Infinity")` is the non-finite infinity, not `NaN`), whereas the
claim's rule — coerce exactly when the value parses as a *finite* number
— keeps it a string. -/
theorem C9_counterexample :
    (parseToolCalls
        "<action><invoke tool=\"t\"><param name=\"x\">Infinity</param></invoke></action>").toolCalls
      = [ToolCall.mk "t" [("x", PValue.pnum "Infinity")]] ∧
    specCoerceClaimed "Infinity" = PValue.pstr "Infinity" ∧
    PValue.pnum "Infinity" ≠ PValue.pstr "Infinity" := by
  decide

/-- C9 amended: the parser's coercion, applied after trimming and CDATA
stripping, follows the claimed order — structured-data attempt for
`[`/`\x7b` prefixes keeping the string on parse failure, exact
`true`/`false` booleans, then numbers — but a non-empty value is coerced
to a number exactly when `Number(value)` is not `NaN`, which also admits
the non-finite `±Infinity` literals (and hex/octal/binary literals),
rather than "parses as a finite number". -/
theorem C9_amended_coercion :
    (∀ s : String, coerceValue s = specCoerceAmended s) ∧
    (∀ raw : List Char, coerceParamValue raw = specCoerceAmended (extractValue raw)) := by
  have h1 : ∀ s : String, coerceValue s = specCoerceAmended s := by
    intro s
    obtain ⟨l⟩ := s
    unfold coerceValue specCoerceAmended
    match l with
    | [] => simp
    | c :: rest => simp [Bool.and_comm]
  exact ⟨h1, fun raw => h1 (extractValue raw)⟩

set_option maxRecDepth 8192 in
/-- C6 amended: after processing all of a turn's calls, if the same tool
has failed on three consecutive executions the orchestrator stops
iterating with `success = true`; in the scenario where the LLM emits the
same failing `write_file` call three iterations in a row (whatever the
error message), `run` returns `iterations = 3`, `toolCallsExecuted = 3`,
and `finalResponse` equal to the parsed text content of the last
assistant message — the advisory naming the tool is printed to the
console only, not placed in `finalResponse`. -/
theorem C6_amended_circuit_breaker (errMsg : String) :
    (runLoop (execFailAll errMsg) SafetyMode.autoApply
        [failResp, failResp, failResp]
        (LoopState.mk initMessages 0 0 0 "" "")).map
      (fun r => (r.success, r.iterations, r.toolCallsExecuted, r.finalResponse))
      = some (true, 3, 3, (parseToolCalls failResp).textContent) := rfl

/-- C4 amended: the orchestrator's turn loop never skips a call — every
parsed call of the turn is executed and produces a tagged feedback block
— whereas `ToolExecutor.executeAll` (which the orchestrator's loop does
not use) does stop after the first failed call when `continueOnError` is
false and the mode is not dry-run, producing no results for the skipped
calls. -/
theorem C4_amended_turn_continues :
    (∀ (execOne : ToolCall → ToolResult) (calls : List ToolCall)
        (executed cf : Nat) (lft : String),
      (processToolCalls execOne calls executed cf lft).2.1 = executed + calls.length ∧
      (processToolCalls execOne calls executed cf lft).1.length = calls.length) ∧
    (∀ (execOne : ToolCall → ToolResult) (mode : SafetyMode) (calls : List ToolCall),
      mode ≠ SafetyMode.dryRun →
      executeAll execOne mode false calls = takeThroughFirstFailure execOne calls) := by
  constructor
  · intro execOne calls
    induction calls with
    | nil => intro executed cf lft; simp [processToolCalls]
    | cons tc rest ih =>
      intro executed cf lft
      simp only [processToolCalls]
      constructor
      · rw [(ih _ _ _).1]; simp; omega
      · simp [(ih _ _ _).2]
  · intro execOne mode calls hmode
    induction calls with
    | nil => rfl
    | cons tc rest ih =>
      simp only [executeAll, takeThroughFirstFailure]
      rcases hs : (execOne tc).success with _ | _
      · simp [hs, hmode]
      · simp [hs, ih]

/-- C4 amended witness. -/
theorem C4_amended_turn_continues_witness :
    (processToolCalls execFailWrite
        [ToolCall.mk "write_file" [], ToolCall.mk "read_file" []] 0 0 "").2.1 = 0 + 2 ∧
    executeAll execFailWrite SafetyMode.autoApply false
        [ToolCall.mk "write_file" [], ToolCall.mk "read_file" []]
      = takeThroughFirstFailure execFailWrite
          [ToolCall.mk "write_file" [], ToolCall.mk "read_file" []] :=
  ⟨(C4_amended_turn_continues.1 execFailWrite
      [ToolCall.mk "write_file" [], ToolCall.mk "read_file" []] 0 0 "").1,
   C4_amended_turn_continues.2 execFailWrite SafetyMode.autoApply
      [ToolCall.mk "write_file" [], ToolCall.mk "read_file" []] (by decide)⟩

/-- C7: auto-compression fires exactly when the token estimate exceeds
80% of the 8000-token budget (6400) and the message count exceeds 10;
for a conversation whose first message is system-role, the compressed
conversation is the unchanged first message, a system-role compression
marker, and the six messages immediately preceding compression, verbatim
(eight messages in total); when the trigger condition fails the
conversation is unchanged. -/
theorem C7_auto_compression (msgs : List ChatMessage) (m0 : ChatMessage)
    (hhead : msgs.head? = some m0) (_hrole : m0.role = Role.system)
    (htok : estimateTokens msgs > 6400) (hlen : msgs.length > 10) :
    autoCompressMessages msgs =
      m0 :: ChatMessage.mk Role.system (compressionMarker (msgs.length - 7)) ::
        msgs.drop (msgs.length - 6) ∧
    (autoCompressMessages msgs).length = 8 ∧
    (autoCompressMessages msgs).drop 2 = msgs.drop (msgs.length - 6) ∧
    (autoCompressMessages msgs).head? = some m0 ∧
    ((autoCompressMessages msgs).getD 1 (ChatMessage.mk Role.user "")).role
      = Role.system ∧
    (∀ ms : List ChatMessage,
      ¬(estimateTokens ms > 6400 ∧ ms.length > 10) →
      autoCompressMessages ms = ms) := by
  have hunch : ∀ ms : List ChatMessage,
      ¬(estimateTokens ms > 6400 ∧ ms.length > 10) →
      autoCompressMessages ms = ms := by
    intro ms h
    unfold autoCompressMessages
    rcases Classical.em (estimateTokens ms > 6400) with h1 | h1
    · rcases Classical.em (ms.length > 10) with h2 | h2
      · exact absurd ⟨h1, h2⟩ h
      · simp [h1, h2]
    · simp [h1]
  rcases msgs with _ | ⟨m, rest⟩
  · simp at hlen
  · have hm0 : m0 = m := by
      have := hhead
      simp only [List.head?_cons, Option.some.injEq] at this
      exact this.symm
    subst hm0
    have hlen' : 10 < rest.length + 1 := by
      simp only [List.length_cons] at hlen; omega
    have hcond : (decide (estimateTokens (m0 :: rest) > 6400) &&
        decide ((m0 :: rest).length > 10)) = true := by simp [htok, hlen']
    have hmain : autoCompressMessages (m0 :: rest) =
        m0 :: ChatMessage.mk Role.system
          (compressionMarker ((m0 :: rest).length - 7)) ::
          (m0 :: rest).drop ((m0 :: rest).length - 6) := by
      unfold autoCompressMessages
      rw [hcond]
      simp only [if_true, List.length_drop, List.length_cons]
      have harg : rest.length + 1 - (rest.length + 1 - (rest.length + 1 - 6)) - 1
          = rest.length + 1 - 7 := by omega
      rw [harg]
    refine ⟨hmain, ?_, ?_, ?_, ?_, hunch⟩
    · rw [hmain]
      simp only [List.length_cons, List.length_drop]
      omega
    · rw [hmain]
      simp
    · rw [hmain]; rfl
    · rw [hmain]; rfl

set_option maxRecDepth 40000 in
/-- C7 witness: an 11-message conversation (system first, estimate 6751 >
6400) compresses to the system message, a marker for the four elided
messages, and the last six messages. -/
theorem C7_auto_compression_witness :
    estimateTokens convo11 > 6400 ∧ convo11.length > 10 ∧
    autoCompressMessages convo11 =
      ChatMessage.mk Role.system "sys" ::
      ChatMessage.mk Role.system (compressionMarker 4) ::
      [ChatMessage.mk Role.user cjk450, ChatMessage.mk Role.assistant cjk450,
       ChatMessage.mk Role.user cjk450, ChatMessage.mk Role.assistant cjk450,
       ChatMessage.mk Role.user cjk450, ChatMessage.mk Role.assistant cjk450] :=
  ⟨by decide, by decide,
   (C7_auto_compression convo11 (ChatMessage.mk Role.system "sys")
      rfl rfl (by decide) (by decide)).1⟩

/-- C2 amended: before dispatch the executor checks only that every
required parameter name is present — no type check and no coercion is
performed (coercion happened earlier, in the parser).  Validation passes
iff all required names are present; it depends only on the key set, not
the values; and when a required parameter is missing, dispatch fails with
an error naming the first missing parameter and its description, without
invoking the handler. -/
theorem C2_amended_validation (d : ToolDefinition) (tc : ToolCall)
    (mode : SafetyMode) (approved : Bool) (ws : String) :
    (validateParams tc d = none ↔
      ∀ p ∈ d.parameters, p.required = true → paramsHas tc.params p.name = true) ∧
    (validateParams (ToolCall.mk tc.tool
        (tc.params.map (fun kv => (kv.1, PValue.pstr "z")))) d
      = validateParams tc d) ∧
    (∀ e, validateParams tc d = some e →
      (∃ p, p ∈ d.parameters ∧ p.required = true ∧
        paramsHas tc.params p.name = false ∧
        e = "缺少必需參數: " ++ p.name ++ " (" ++ p.description ++
          ")。請確認工具調用的 XML 格式包含所有必需的 <param> 標籤。") ∧
      (∀ h h' : ToolCall → ToolResult,
        executeResult (some d) mode approved ws h tc =
        executeResult (some d) mode approved ws h' tc) ∧
      executeResult (some d) mode approved ws (fun _ => okToolResult) tc =
        { success := false, error := some e }) := by
  refine ⟨?_, ?_, ?_⟩
  · unfold validateParams
    rw [Option.map_eq_none']
    rw [List.find?_eq_none]
    constructor
    · intro h p hp hreq
      have := h p (List.mem_filter.mpr ⟨hp, by simp [hreq]⟩)
      simpa using this
    · intro h p hp
      have hm := List.mem_filter.mp hp
      have := h p hm.1 (by simpa using hm.2)
      simp [this]
  · unfold validateParams
    have : ∀ p : ToolParameter,
        paramsHas (tc.params.map (fun kv => (kv.1, PValue.pstr "z"))) p.name
        = paramsHas tc.params p.name := by
      intro p
      unfold paramsHas
      rw [List.any_map]
      rfl
    simp only [this]
  · intro e he
    have hout : executeOutcome (some d) mode approved ws tc
        = ExecOutcome.invalidParams e := by
      simp [executeOutcome, he]
    refine ⟨?_, ?_, ?_⟩
    · unfold validateParams at he
      rw [Option.map_eq_some'] at he
      obtain ⟨p, hfind, hmsg⟩ := he
      have hmem := List.mem_filter.mp (List.mem_of_find?_eq_some hfind)
      have hpred := List.find?_some hfind
      exact ⟨p, hmem.1, by simpa using hmem.2, by simpa using hpred, hmsg.symm⟩
    · intro h h'
      unfold executeResult
      rw [hout]
    · unfold executeResult
      rw [hout]

/-- C2 amended witness. -/
theorem C2_amended_validation_witness :
    (validateParams (ToolCall.mk "write_file" [("content", PValue.pstr "x")])
        writeFileDef = none ↔
      ∀ p ∈ writeFileDef.parameters, p.required = true →
        paramsHas [("content", PValue.pstr "x")] p.name = true) ∧
    executeResult (some writeFileDef) SafetyMode.autoApply true "/ws"
        (fun _ => okToolResult)
        (ToolCall.mk "write_file" [("content", PValue.pstr "x")]) =
      { success := false
        error := some ("缺少必需參數: path (文件的相對或絕對路徑)。請確認工具調用的 XML 格式包含所有必需的 <param> 標籤。") } := by
  constructor
  · exact (C2_amended_validation writeFileDef
      (ToolCall.mk "write_file" [("content", PValue.pstr "x")])
      SafetyMode.autoApply true "/ws").1
  · exact ((C2_amended_validation writeFileDef
      (ToolCall.mk "write_file" [("content", PValue.pstr "x")])
      SafetyMode.autoApply true "/ws").2.2 _ rfl).2.2

/-- Helper: `fetchGo` performs at most `attemptsLeft` further invocations. -/
theorem fetchGo_attempts_le {α : Type} (outcomes : Nat → Except String α)
    (rdq : ℚ) (j : Nat → ℚ) (total : Nat) :
    ∀ left attempt acc,
      (fetchGo outcomes rdq j total left attempt acc).attemptsUsed ≤ attempt + left := by
  intro left
  induction left with
  | zero => intro attempt acc; simp [fetchGo]
  | succ m ih =>
    intro attempt acc
    match m with
    | 0 =>
      simp only [fetchGo]
      cases outcomes attempt <;> simp
    | Nat.succ k =>
      simp only [fetchGo]
      cases outcomes attempt with
      | ok v => simp
      | error e =>
        by_cases hr : isRetryableError e
        · simp only [hr, Bool.not_true, Bool.false_eq_true, if_false]
          have := ih (attempt + 1) (acc ++ [retryWait rdq attempt (j attempt)])
          simp only [Nat.succ_eq_add_one] at *
          omega
        · simp only [hr, Bool.not_false, if_true]
          omega

/-- Helper: the waits recorded by `fetchGo` are exactly the backoff values
`retryWait` for successive attempt indices starting at 0. -/
theorem fetchGo_delays_shape {α : Type} (outcomes : Nat → Except String α)
    (rdq : ℚ) (j : Nat → ℚ) (total : Nat) :
    ∀ left attempt acc,
      acc = (List.range attempt).map (fun i => retryWait rdq i (j i)) →
      ∃ m, (fetchGo outcomes rdq j total left attempt acc).delays
        = (List.range m).map (fun i => retryWait rdq i (j i)) := by
  intro left
  induction left with
  | zero => intro attempt acc hacc; exact ⟨attempt, by simpa [fetchGo] using hacc⟩
  | succ m ih =>
    intro attempt acc hacc
    match m with
    | 0 =>
      refine ⟨attempt, ?_⟩
      cases houtcome : outcomes attempt <;> simp [fetchGo, houtcome, hacc]
    | Nat.succ k =>
      cases houtcome : outcomes attempt with
      | ok v => exact ⟨attempt, by simp [fetchGo, houtcome, hacc]⟩
      | error e =>
        by_cases hr : isRetryableError e
        · have hacc' : acc ++ [retryWait rdq attempt (j attempt)]
              = (List.range (attempt + 1)).map (fun i => retryWait rdq i (j i)) := by
            rw [List.range_succ, List.map_append, ← hacc]
            rfl
          have := ih (attempt + 1)
            (acc ++ [retryWait rdq attempt (j attempt)]) hacc'
          simpa [fetchGo, houtcome, hr] using this
        · exact ⟨attempt, by simp [fetchGo, houtcome, hr, hacc]⟩

/-- C8 amended: the transport makes at most 4 attempts (3 retries); a
first-attempt error whose message matches none of the retry patterns
(`network`, `timeout`, `econnreset`, `enotfound`, `503`, `502`, `504`,
`429`, `rate.?limit` — note a plain `500` matches none of them)
propagates immediately with no wait, while a pattern-matching error is
retried; the wait before retry `k+1` is `1000·2^k` ms with ±25% jitter —
within `[750·2^k, 1250·2^k]` for any admissible jitter — and the
recorded waits are exactly those backoff values in attempt order. -/
theorem C8_amended_retry :
    (∀ (outcomes : Nat → Except String Nat) (j : Nat → ℚ),
      (fetchWithRetry outcomes j).attemptsUsed ≤ 4) ∧
    (∀ (outcomes : Nat → Except String Nat) (j : Nat → ℚ) (e : String),
      outcomes 0 = Except.error e → isRetryableError e = false →
      fetchWithRetry outcomes j = ⟨Except.error e, 1, []⟩) ∧
    (∀ (outcomes : Nat → Except String Nat) (j : Nat → ℚ) (e : String) (v : Nat),
      outcomes 0 = Except.error e → isRetryableError e = true →
      outcomes 1 = Except.ok v →
      fetchWithRetry outcomes j = ⟨Except.ok v, 2, [retryWait 1000 0 (j 0)]⟩) ∧
    (∀ (k : Nat) (jv : ℚ), |jv| ≤ 1 →
      750 * 2 ^ k ≤ retryWait 1000 k jv ∧ retryWait 1000 k jv ≤ 1250 * 2 ^ k) ∧
    (∀ (outcomes : Nat → Except String Nat) (j : Nat → ℚ),
      (fetchWithRetry outcomes j).delays =
        (List.range (fetchWithRetry outcomes j).delays.length).map
          (fun i => retryWait 1000 i (j i))) := by
  refine ⟨?_, ?_, ?_, ?_, ?_⟩
  · intro outcomes j
    simpa using fetchGo_attempts_le outcomes 1000 j 4 4 0 []
  · intro outcomes j e h0 hr
    simp [fetchWithRetry, fetchGo, h0, hr]
  · intro outcomes j e v h0 hr h1
    simp [fetchWithRetry, fetchGo, h0, hr, h1]
  · intro k jv hjv
    obtain ⟨hj1, hj2⟩ := abs_le.mp hjv
    have hP : (0 : ℚ) < 2 ^ k := by positivity
    have hlb : 750 * 2 ^ k ≤ 1000 * 2 ^ k + 1000 * 2 ^ k * (1/4 : ℚ) * jv := by
      nlinarith
    have hub : 1000 * 2 ^ k + 1000 * 2 ^ k * (1/4 : ℚ) * jv ≤ 1250 * 2 ^ k := by
      nlinarith
    constructor
    · exact le_max_of_le_right hlb
    · exact max_le (by positivity) hub
  · intro outcomes j
    obtain ⟨m, hm⟩ := fetchGo_delays_shape outcomes 1000 j 4 4 0 [] rfl
    rw [show (fetchWithRetry outcomes j).delays
        = (fetchGo outcomes 1000 j 4 4 0 []).delays from rfl, hm]
    simp

/-- C8 amended witness. -/
theorem C8_amended_retry_witness :
    (fetchWithRetry (fun _ => (Except.error "timeout" : Except String Nat))
        (fun _ => 0)).attemptsUsed ≤ 4 ∧
    fetchWithRetry (fun n => if n = 0 then Except.error "404 Not Found"
        else Except.ok (7 : Nat)) (fun _ => 0)
      = ⟨Except.error "404 Not Found", 1, []⟩ ∧
    fetchWithRetry (fun n => if n = 0 then Except.error "timeout"
        else Except.ok (7 : Nat)) (fun _ => 0)
      = ⟨Except.ok 7, 2, [retryWait 1000 0 0]⟩ ∧
    (750 * 2 ^ 2 ≤ retryWait 1000 2 0 ∧ retryWait 1000 2 0 ≤ 1250 * 2 ^ 2) := by
  refine ⟨C8_amended_retry.1 _ _, ?_, ?_, ?_⟩
  · exact C8_amended_retry.2.1 _ _ "404 Not Found" rfl (by decide)
  · exact C8_amended_retry.2.2.1 _ _ "timeout" (7 : Nat) rfl (by decide) rfl
  · exact C8_amended_retry.2.2.2.1 2 0 (by norm_num)

/-- Helper: structure eta for `String`. -/
theorem strMk_data (s : String) : String.mk s.data = s := rfl

/-- Helper: the handlers' absolute-path computation is `pathResolve`. -/
theorem resolveAbs_eq (ws p : String) :
    (if pathIsAbsolute p then pathNormalize p else pathResolve ws p)
      = pathResolve ws p := by
  by_cases h : pathIsAbsolute p <;> simp [pathResolve, h]

/-- C1 amended: only the `write_file` and `apply_diff` handlers resolve
the (trimmed) path against the workspace, normalize it, and reject —
without touching the filesystem — when the normalized absolute path does
not *start with* the workspaceRoot string, or when the raw input contains
`../`, `..\`, or `%2e%2e`.  The `read_file` and `list_directory` handlers
only reject a relative path containing `..`; they perform no
workspace-containment check, and for any absolute path — inside the
workspace or not — they go straight to the filesystem. -/
theorem C1_amended_path_checks
    (ws content diff rp ap wp wsp dp dsp lp : String) (fs : Fs)
    (rd : String → Option (List (String × Bool))) (fuel : Nat) :
    -- read_file: rejection is only `..` on a relative path
    (strIncludes ".." rp = true → pathIsAbsolute rp = false →
      readFileHandler ws fs [("path", PValue.pstr rp)] =
        { success := false
          error := some "不允許使用相對路徑 '..'，請使用絕對路徑或工作區內的相對路徑" }) ∧
    -- read_file: any absolute path goes straight to the filesystem
    (pathIsAbsolute ap = true →
      (readFileHandler ws fs [("path", PValue.pstr ap)]).success =
        (fs.read (pathResolve ws ap)).isSome) ∧
    -- write_file: resolved path outside the workspace prefix
    (jsTrim wp.data = wp.data → wp ≠ "" →
      strStartsWith (pathResolve ws wp) ws = false →
      writeFileHandler ws fs [("path", PValue.pstr wp), ("content", PValue.pstr content)] =
        ({ success := false
           error := some ("🔒 安全檢查失敗：路徑遍歷攻擊檢測\n路徑 \"" ++ wp ++
             "\" 解析到工作區外: " ++ pathResolve ws wp ++
             "\n僅允許在工作區內操作: " ++ ws) }, fs)) ∧
    -- write_file: suspicious raw-input patterns
    (jsTrim wsp.data = wsp.data → wsp ≠ "" →
      strStartsWith (pathResolve ws wsp) ws = true →
      (strIncludes "../" wsp || strIncludes "..\\" wsp ||
        strIncludes "%2e%2e" wsp) = true →
      writeFileHandler ws fs [("path", PValue.pstr wsp), ("content", PValue.pstr content)] =
        ({ success := false
           error := some ("🔒 安全檢查失敗：路徑包含可疑字符 \"" ++ wsp ++ "\"") }, fs)) ∧
    -- apply_diff: resolved path outside the workspace prefix
    (jsTrim dp.data = dp.data → dp ≠ "" →
      jsTrim diff.data = diff.data → diff ≠ "" →
      (strIncludes "@@" diff || strStartsWith diff "---") = true →
      strStartsWith (pathResolve ws dp) ws = false →
      applyDiffHandler ws fs [("path", PValue.pstr dp), ("diff", PValue.pstr diff)] =
        ({ success := false
           error := some ("🔒 安全檢查失敗：路徑遍歷攻擊檢測\n路徑 \"" ++ dp ++
             "\" 解析到工作區外: " ++ pathResolve ws dp ++
             "\n僅允許在工作區內操作: " ++ ws) }, fs)) ∧
    -- apply_diff: suspicious raw-input patterns
    (jsTrim dsp.data = dsp.data → dsp ≠ "" →
      jsTrim diff.data = diff.data → diff ≠ "" →
      (strIncludes "@@" diff || strStartsWith diff "---") = true →
      strStartsWith (pathResolve ws dsp) ws = true →
      (strIncludes "../" dsp || strIncludes "..\\" dsp ||
        strIncludes "%2e%2e" dsp) = true →
      applyDiffHandler ws fs [("path", PValue.pstr dsp), ("diff", PValue.pstr diff)] =
        ({ success := false
           error := some ("🔒 安全檢查失敗：路徑包含可疑字符 \"" ++ dsp ++ "\"") }, fs)) ∧
    -- list_directory: rejection is only `..` on a relative path
    (strIncludes ".." lp = true → pathIsAbsolute lp = false →
      listDirectoryHandler rd fuel [("path", PValue.pstr lp)] =
        { success := false
          error := some "不允許使用相對路徑 '..'，請使用絕對路徑或工作區內的相對路徑" }) ∧
    -- list_directory: any absolute path goes straight to readdir
    (pathIsAbsolute ap = true →
      (listDirectoryHandler rd fuel [("path", PValue.pstr ap)]).success =
        (listDirFuel rd fuel ap false false "").isSome) := by
  refine ⟨?_, ?_, ?_, ?_, ?_, ?_, ?_, ?_⟩
  · intro h1 h2
    simp [readFileHandler, paramsGet, h1, h2]
  · intro habs
    cases hfr : fs.read (pathResolve ws ap) <;>
      simp [readFileHandler, paramsGet, habs, hfr]
  · intro htw hne hout
    have hip : String.mk (jsTrim wp.data) = wp := by rw [htw]
    simp [writeFileHandler, paramsGet, hip, hne, resolveAbs_eq, hout]
  · intro htw hne hin hsusp
    have hip : String.mk (jsTrim wsp.data) = wsp := by rw [htw]
    simp [writeFileHandler, paramsGet, hip, hne, resolveAbs_eq, hin, hsusp]
  · intro htp hpne htd hdne hfmt hout
    have hip : String.mk (jsTrim dp.data) = dp := by rw [htp]
    have hid : String.mk (jsTrim diff.data) = diff := by rw [htd]
    have hnotbad : (!strIncludes "@@" diff && !strStartsWith diff "---") = false := by
      cases hq : strIncludes "@@" diff <;>
        cases hw : strStartsWith diff "---" <;> simp_all
    simp [applyDiffHandler, paramsGet, hip, hid, hpne, hdne, hnotbad,
      resolveAbs_eq, hout]
  · intro htp hpne htd hdne hfmt hin hsusp
    have hip : String.mk (jsTrim dsp.data) = dsp := by rw [htp]
    have hid : String.mk (jsTrim diff.data) = diff := by rw [htd]
    have hnotbad : (!strIncludes "@@" diff && !strStartsWith diff "---") = false := by
      cases hq : strIncludes "@@" diff <;>
        cases hw : strStartsWith diff "---" <;> simp_all
    simp [applyDiffHandler, paramsGet, hip, hid, hpne, hdne, hnotbad,
      resolveAbs_eq, hin, hsusp]
  · intro h1 h2
    have hlpne : lp ≠ "" := by
      intro he
      rw [he] at h1
      exact absurd h1 (by decide)
    simp [listDirectoryHandler, paramsGet, hlpne, h1, h2]
  · intro habs
    have hne : ap ≠ "" := by
      intro he
      rw [he] at habs
      exact absurd habs (by decide)
    cases hfl : listDirFuel rd fuel ap false false "" <;>
      simp [listDirectoryHandler, paramsGet, hne, habs, hfl]

/-- C1 amended witness. -/
theorem C1_amended_path_checks_witness :
    readFileHandler "/ws" (Fs.mk [("/etc/passwd", "root:x:0:0:root")] [])
        [("path", PValue.pstr "../../etc/passwd")] =
      { success := false
        error := some "不允許使用相對路徑 '..'，請使用絕對路徑或工作區內的相對路徑" } ∧
    (readFileHandler "/ws" (Fs.mk [("/etc/passwd", "root:x:0:0:root")] [])
        [("path", PValue.pstr "/etc/passwd")]).success =
      ((Fs.mk [("/etc/passwd", "root:x:0:0:root")] []).read
        (pathResolve "/ws" "/etc/passwd")).isSome ∧
    writeFileHandler "/ws" (Fs.mk [("/etc/passwd", "root:x:0:0:root")] [])
        [("path", PValue.pstr "/a/b"), ("content", PValue.pstr "hi")] =
      ({ success := false
         error := some ("🔒 安全檢查失敗：路徑遍歷攻擊檢測\n路徑 \"" ++ "/a/b" ++
           "\" 解析到工作區外: " ++ pathResolve "/ws" "/a/b" ++
           "\n僅允許在工作區內操作: " ++ "/ws") },
        Fs.mk [("/etc/passwd", "root:x:0:0:root")] []) ∧
    writeFileHandler "/ws" (Fs.mk [("/etc/passwd", "root:x:0:0:root")] [])
        [("path", PValue.pstr "a/../b"), ("content", PValue.pstr "hi")] =
      ({ success := false
         error := some ("🔒 安全檢查失敗：路徑包含可疑字符 \"" ++ "a/../b" ++ "\"") },
        Fs.mk [("/etc/passwd", "root:x:0:0:root")] []) ∧
    applyDiffHandler "/ws" (Fs.mk [("/etc/passwd", "root:x:0:0:root")] [])
        [("path", PValue.pstr "/a/c"), ("diff", PValue.pstr "@@ -1,1 +1,1 @@\n-x\n+y")] =
      ({ success := false
         error := some ("🔒 安全檢查失敗：路徑遍歷攻擊檢測\n路徑 \"" ++ "/a/c" ++
           "\" 解析到工作區外: " ++ pathResolve "/ws" "/a/c" ++
           "\n僅允許在工作區內操作: " ++ "/ws") },
        Fs.mk [("/etc/passwd", "root:x:0:0:root")] []) ∧
    applyDiffHandler "/ws" (Fs.mk [("/etc/passwd", "root:x:0:0:root")] [])
        [("path", PValue.pstr "a/../c"), ("diff", PValue.pstr "@@ -1,1 +1,1 @@\n-x\n+y")] =
      ({ success := false
         error := some ("🔒 安全檢查失敗：路徑包含可疑字符 \"" ++ "a/../c" ++ "\"") },
        Fs.mk [("/etc/passwd", "root:x:0:0:root")] []) ∧
    listDirectoryHandler (fun _ => some []) 1 [("path", PValue.pstr "../x")] =
      { success := false
        error := some "不允許使用相對路徑 '..'，請使用絕對路徑或工作區內的相對路徑" } ∧
    (listDirectoryHandler (fun _ => some []) 1 [("path", PValue.pstr "/etc/passwd")]).success =
      (listDirFuel (fun _ => some []) 1 "/etc/passwd" false false "").isSome := by
  obtain ⟨h1, h2, h3, h4, h5, h6, h7, h8⟩ :=
    C1_amended_path_checks "/ws" "hi" "@@ -1,1 +1,1 @@\n-x\n+y"
      "../../etc/passwd" "/etc/passwd" "/a/b" "a/../b" "/a/c" "a/../c" "../x"
      (Fs.mk [("/etc/passwd", "root:x:0:0:root")] []) (fun _ => some []) 1
  exact ⟨h1 (by decide) (by decide), h2 (by decide),
    h3 rfl (by decide) (by decide), h4 rfl (by decide) (by decide) (by decide),
    h5 rfl (by decide) rfl (by decide) (by decide) (by decide),
    h6 rfl (by decide) rfl (by decide) (by decide) (by decide) (by decide),
    h7 (by decide) (by decide), h8 (by decide)⟩

/-- Helper: one loop iteration on a successful single-call response
advances the iteration and executed counters and continues. -/
theorem runLoop_cons_callResp (script : List String) (st : LoopState) :
    runLoop execOK SafetyMode.autoApply (callResp :: script) st =
      runLoop execOK SafetyMode.autoApply script
        { messages := (autoCompressMessages st.messages ++
            [ChatMessage.mk Role.assistant callResp]) ++
            [ChatMessage.mk Role.user
              "[工具執行結果]\n[工具: read_file]\nok\n\n[重要提示] 請向用戶簡潔地解釋以上結果的含義。不要只顯示原始數據，要說明這些結果代表什麼、有什麼重要信息。"]
          iterations := st.iterations + 1
          toolCallsExecuted := st.toolCallsExecuted + 1
          consecutiveFailures := 0
          lastFailedTool := ""
          finalResponse := "" } := rfl

/-- Helper: a script of `n` single-call responses (each call succeeding)
followed by one plain response runs for `n + 1` iterations. -/
theorem runLoop_ok_iterations (n : Nat) : ∀ st : LoopState,
    (runLoop execOK SafetyMode.autoApply
        (List.replicate n callResp ++ [plainResp]) st).map
      (fun r => (r.success, r.iterations, r.toolCallsExecuted, r.finalResponse))
      = some (true, st.iterations + n + 1, st.toolCallsExecuted + n, "done") := by
  induction n with
  | zero => intro st; rfl
  | succ m ih =>
    intro st
    rw [List.replicate_succ, List.cons_append, runLoop_cons_callResp, ih]
    simp only [Option.some.injEq, Prod.mk.injEq, true_and, and_true]
    constructor <;> omega

/-- C3: the dead sanity ceiling.  The constructor stores
`maxIterations = 100` by default (its comment says it prevents infinite
loops, and values above 1000 draw a warning), but `run`'s `while (true)`
loop never reads it: the result is independent of `maxIterations`, and a
run whose LLM emits a successful tool call for 100 straight iterations
does not exit at iteration 100 with a "max iterations reached" advisory
— it keeps going and finishes at iteration 101 when the model finally
answers without tools, `finalResponse` carrying no advisory. -/
theorem C3_no_iteration_ceiling :
    (∀ m1 m2 : Nat,
      orchestratorRun m1 execOK SafetyMode.autoApply
          (List.replicate 100 callResp ++ [plainResp]) initMessages =
        orchestratorRun m2 execOK SafetyMode.autoApply
          (List.replicate 100 callResp ++ [plainResp]) initMessages) ∧
    (orchestratorRun 100 execOK SafetyMode.autoApply
        (List.replicate 100 callResp ++ [plainResp]) initMessages).map
      (fun r => (r.success, r.iterations, r.toolCallsExecuted, r.finalResponse))
      = some (true, 101, 100, "done") ∧
    strIncludes "max" "done" = false := by
  refine ⟨fun m1 m2 => rfl, ?_, by decide⟩
  have h := runLoop_ok_iterations 100 (LoopState.mk initMessages 0 0 0 "" "")
  simpa [orchestratorRun] using h

end Bailu
